import Mathlib

/-
  Verification of the content-normalization and package-assembly pipeline of
  the skill-seekers MCP server (TypeScript sources under src/).

  The TypeScript code is shallowly embedded: every JS string operation is
  modelled on the character list underlying the Lean `String` type, so that
  all definitions compute by structural recursion and concrete inputs can be
  evaluated inside proofs.  JS strings are sequences of UTF-16 units; we model
  them as sequences of characters, which agrees on all inputs used here.
-/

set_option linter.unusedVariables false

namespace SkillSeekers

/-! ## JS string primitives, modelled on the underlying character list -/

/-- Characters considered whitespace by the JS `trim`/`\s` operations
(space, tab, newline, carriage return, form feed, vertical tab). -/
def isJsWs (c : Char) : Bool :=
  c == ' ' || c == '\t' || c == '\n' || c == '\r' || c == '\x0c' || c == '\x0b'

/-- Model of `String.prototype.trim` on character lists. -/
def trimData (cs : List Char) : List Char :=
  ((cs.dropWhile isJsWs).reverse.dropWhile isJsWs).reverse

/-- Model of `String.prototype.trim`. -/
def jsTrim (s : String) : String := String.mk (trimData s.data)

/-- Model of `String.prototype.toLowerCase` (ASCII letters, as in `Char.toLower`). -/
def jsToLower (s : String) : String := String.mk (s.data.map Char.toLower)

/-- Model of `String.prototype.toUpperCase` (ASCII letters). -/
def jsToUpper (s : String) : String := String.mk (s.data.map Char.toUpper)

/-- Occurrence of `pat` as a contiguous run inside `cs`. -/
def infixOfData (pat : List Char) : List Char → Bool
  | [] => pat.isEmpty
  | c :: rest => pat.isPrefixOf (c :: rest) || infixOfData pat rest

/-- Model of `String.prototype.includes`. -/
def jsIncludes (s pat : String) : Bool := infixOfData pat.data s.data

/-- Model of `String.prototype.startsWith`. -/
def jsStartsWith (s pat : String) : Bool := pat.data.isPrefixOf s.data

/-- Model of `String.prototype.endsWith`. -/
def jsEndsWith (s pat : String) : Bool := pat.data.isSuffixOf s.data

/-- Model of the JS `length` property. -/
def jsLen (s : String) : Nat := s.data.length

/-- Model of `String.prototype.substring(0, n)`. -/
def jsSubstrTo (s : String) (n : Nat) : String := String.mk (s.data.take n)

/-- Model of `String.prototype.substring(n)` (drop the first `n` units). -/
def jsDropStr (s : String) (n : Nat) : String := String.mk (s.data.drop n)

/-- Model of `String.prototype.split` at newline characters, on character lists. -/
def splitNlData : List Char → List (List Char)
  | [] => [[]]
  | c :: rest =>
    if c = '\n' then [] :: splitNlData rest
    else
      match splitNlData rest with
      | l :: ls => (c :: l) :: ls
      | [] => [[c]]

/-- Model of `code.split('\n')`. -/
def jsSplitNl (s : String) : List String := (splitNlData s.data).map String.mk

/-- Model of `Array.prototype.join('\n')` / `String.intercalate "\n"`. -/
def joinNl : List String → String
  | [] => ""
  | s :: rest =>
    match rest with
    | [] => s
    | _ :: _ => s ++ "\n" ++ joinNl rest

/-- Truthiness of an optional JS string: `undefined` and the empty string are falsy. -/
def jsTruthy : Option String → Bool
  | none => false
  | some s => !s.data.isEmpty

/-! ## Decimal rendering of natural numbers

Models the rendering of a number inside a JS template literal such as
interpolation of a counter.  Kept structurally recursive (on an explicit
fuel that is always sufficient) so that it computes by kernel reduction. -/

/-- The decimal digit character for `d` (values `≥ 9` all map to `'9'`;
the function is only ever applied to `d < 10`). -/
def digitChar (d : Nat) : Char :=
  match d with
  | 0 => '0' | 1 => '1' | 2 => '2' | 3 => '3' | 4 => '4'
  | 5 => '5' | 6 => '6' | 7 => '7' | 8 => '8' | _ => '9'

/-- Digit list of `n` in base ten, most significant first; `fuel` bounds the
recursion depth and any `fuel > n` is sufficient. -/
def decDigitsAux : Nat → Nat → List Char
  | 0, n => []
  | fuel + 1, n =>
    if n < 10 then [digitChar n]
    else decDigitsAux fuel (n / 10) ++ [digitChar (n % 10)]

/-- Decimal digit list of `n`, most significant first. -/
def decDigits (n : Nat) : List Char := decDigitsAux (n + 1) n

/-- Decimal rendering of a natural number, as produced by JS template interpolation. -/
def natDec (n : Nat) : String := String.mk (decDigits n)

/-- Numeric value of a decimal digit character (inverse of `digitChar` below ten). -/
def digitVal (c : Char) : Nat :=
  match c with
  | '0' => 0 | '1' => 1 | '2' => 2 | '3' => 3 | '4' => 4
  | '5' => 5 | '6' => 6 | '7' => 7 | '8' => 8 | _ => 9

/-- Left fold reading a decimal digit list back into a number. -/
def decParse (cs : List Char) : Nat := cs.foldl (fun a c => 10 * a + digitVal c) 0

/-! ## Shared data model (src/src/types.ts)

The `CodeBlock` record and the `codeBlocks` field of `DocPage` are used by
the scrapers and the skill builder but their declaration is not among the
provided sources; their shape is fixed by every use site and by the spec
(§3: code, language?, filename?, isScript, isTemplate, title?). -/

/-- Page classification, the `'api' | 'guide' | 'example'` union type
(`example` is a Lean keyword, so the last constructor is `examplePage`). -/
inductive PageType
  | api
  | guide
  | examplePage
deriving DecidableEq, Repr

/-- Job source kinds (`'scrape_docs' | 'scrape_github' | 'scrape_pdf'`). -/
inductive JobType
  | scrapeDocs
  | scrapeGithub
  | scrapePdf
deriving DecidableEq, Repr

/-- Enriched code record.  Optional JS strings become `Option String`. -/
structure CodeBlock where
  code : String
  language : Option String
  filename : Option String
  isScript : Bool
  isTemplate : Bool
  title : Option String
deriving DecidableEq, Repr

/-- Structured API reference.  The source field `example` is a Lean keyword
and is modelled as `exampleStr`.  `parameters` absent and `parameters`
empty behave identically at every use site and are both modelled as `[]`. -/
structure ApiReference where
  signature : Option String
  parameters : List String
  returns : Option String
  exampleStr : Option String
  deprecated : Option Bool
deriving DecidableEq, Repr

/-- Normalized Documentation Unit (`DocPage`).  `codeExamples` absent and
empty behave identically at every use site and are both modelled as `[]`;
likewise for `codeBlocks`. -/
structure DocPage where
  id : String
  source : String
  title : String
  content : String
  snippet : String
  type : PageType
  url : String
  searchableText : String
  category : Option String
  apiReference : Option ApiReference
  codeExamples : List String
  codeBlocks : List CodeBlock
deriving DecidableEq, Repr

/-- One generated file of a skill package. -/
structure SkillFile where
  path : String
  content : String
  size : Nat
deriving DecidableEq, Repr

/-- Section extracted from a PDF text. -/
structure PdfSection where
  title : String
  content : String
  pageNumber : Nat
  codeBlocks : Option (List String)
deriving DecidableEq, Repr

/-- Parsed PDF data.  The metadata map is modelled as an association list in
insertion order (`Object.entries` order for its non-numeric keys). -/
structure PdfData where
  title : String
  content : String
  pages : Nat
  metadata : List (String × String)
  sections : List PdfSection
deriving DecidableEq, Repr

/-! ## Marker predicates shared by the three textually identical copies of
`isCompleteScript` (doc-scraper.ts, pdf-scraper.ts, github-scraper.ts).
Each predicate mirrors the body of one language-specific branch. -/

/-- JS word characters (`\w` = letters, digits, underscore). -/
def isWordChar (c : Char) : Bool :=
  ('a' ≤ c && c ≤ 'z') || ('A' ≤ c && c ≤ 'Z') || ('0' ≤ c && c ≤ '9') || c == '_'

/-- A line matching the regex `^def \w+\(` (a top-level python def header). -/
def defHeadLine (l : String) : Bool :=
  jsStartsWith l ("def ") &&
  (let rest := l.data.drop 4
   let w := rest.takeWhile isWordChar
   !w.isEmpty &&
     (match rest.drop w.length with
      | '(' :: _ => true
      | _ => false))

/-- Count of lines matching `^def \w+\(` (the `gm`-regex match count). -/
def defLineCount (code : String) : Nat :=
  ((jsSplitNl code).filter defHeadLine).length

/-- Python branch of `isCompleteScript`. -/
def pythonScriptMarkers (code : String) : Bool :=
  jsIncludes code ("if __name__") ||
  jsIncludes code ("def main(") ||
  decide (2 ≤ defLineCount code)

/-- Bash branch of `isCompleteScript`: at least five non-blank non-comment lines. -/
def bashScriptMarkers (code : String) : Bool :=
  decide (5 ≤ ((jsSplitNl code).filter
    (fun l => !(jsTrim l).data.isEmpty && !jsStartsWith (jsTrim l) ("#"))).length)

/-- JS/TS branch of `isCompleteScript`. -/
def jsScriptMarkers (code : String) : Bool :=
  jsIncludes code ("export ") ||
  jsIncludes code ("module.exports") ||
  (jsIncludes code ("async function") && decide (200 < jsLen code))

namespace DocScraper

/-! ## Web documentation scraper (src/src/scrapers/doc-scraper.ts) -/

/-- Condition of the first branch of `determinePageType`: URL contains
an API-ish path segment or the content contains parameter/return markers. -/
def apiCond (url content : String) : Bool :=
  jsIncludes (jsToLower url) ("/api/") ||
  jsIncludes (jsToLower url) ("/reference/") ||
  jsIncludes (jsToLower url) ("/ref/") ||
  jsIncludes (jsToLower content) ("parameters:") ||
  jsIncludes (jsToLower content) ("returns:")

/-- Condition of the second branch of `determinePageType`: URL contains an
example-ish path segment or the content contains example markers. -/
def exampleCond (url content : String) : Bool :=
  jsIncludes (jsToLower url) ("/example") ||
  jsIncludes (jsToLower url) ("/tutorial") ||
  jsIncludes (jsToLower url) ("/sample") ||
  jsIncludes (jsToLower content) ("example:") ||
  jsIncludes (jsToLower content) ("// example")

/-- Page type from URL and content (doc-scraper.ts, `determinePageType`).
The api branch is tested first, then the example branch, else guide. -/
def determinePageType (url content : String) : PageType :=
  if apiCond url content then PageType.api
  else if exampleCond url content then PageType.examplePage
  else PageType.guide

/-- Category from URL and the configured category → URL-patterns mapping
(doc-scraper.ts, `determineCategory`): first category in mapping order with
a pattern occurring case-insensitively in the URL. -/
def categoriesGo (urlLower : String) : List (String × List String) → Option String
  | [] => none
  | (category, patterns) :: rest =>
    if patterns.any (fun p => jsIncludes urlLower (jsToLower p)) then some category
    else categoriesGo urlLower rest

/-- Category classifier (doc-scraper.ts, `determineCategory`). -/
def determineCategory (url : String)
    (categories : Option (List (String × List String))) : Option String :=
  match categories with
  | none => none
  | some cats => categoriesGo (jsToLower url) cats

/-- Script detector of the web doc scraper (doc-scraper.ts, `isCompleteScript`).
Sequential early returns become an ordered if-chain. -/
def isCompleteScript (code : String) (language : Option String) : Bool :=
  if jsStartsWith code ("#!/") then true
  else if language == some "python" && pythonScriptMarkers code then true
  else if (language == some "bash" || language == some "sh") && bashScriptMarkers code then true
  else if (language == some "javascript" || language == some "typescript")
      && jsScriptMarkers code then true
  else if 20 ≤ (jsSplitNl code).length then true
  else false

/-- Raw data of one crawled page, as produced by the DOM extraction helpers
(`extractTitle`, `extractContent`, `extractCodeBlocks`, `extractApiReference`);
those helpers traverse the parsed HTML document, which is an external
collaborator, so their results are inputs of the page-processing step.
`apiRef` is the API reference the DOM extraction would yield for this page. -/
structure RawPage where
  url : String
  title : String
  content : String
  codeExamples : List String
  codeBlocks : List CodeBlock
  apiRef : ApiReference
deriving DecidableEq, Repr

/-- Per-page processing step of `scrapeDocumentation`'s request handler
(doc-scraper.ts lines 62–100): quality gate, classification and unit
construction.  `docsLen` is the number of units collected so far (`docs.length`).
Returns `none` when the page is skipped by the quality gate. -/
def processPage (configName : String)
    (categories : Option (List (String × List String)))
    (docsLen : Nat) (p : RawPage) : Option DocPage :=
  if p.title.data.isEmpty || jsLen p.content < 50 then none
  else
    let pageType := determinePageType p.url p.content
    some {
      id := "docs-" ++ natDec (docsLen + 1)
      source := configName
      title := p.title
      content := p.content
      snippet := jsSubstrTo p.content 200 ++ "..."
      type := pageType
      url := p.url
      searchableText := jsToLower (p.title ++ " " ++ p.content)
      category := determineCategory p.url categories
      apiReference := if pageType = PageType.api then some p.apiRef else none
      codeExamples := p.codeExamples
      codeBlocks := p.codeBlocks
    }

/-- Effect of one handled page on the accumulated unit list: an accepted page
is appended, a rejected page leaves the list unchanged. -/
def processStep (configName : String)
    (categories : Option (List (String × List String)))
    (docs : List DocPage) (p : RawPage) : List DocPage :=
  match processPage configName categories docs.length p with
  | some d => docs ++ [d]
  | none => docs

end DocScraper

/-- Left brace character (written via its code point to keep braces out of literals). -/
def lbrace : Char := '\x7b'

/-- Right brace character. -/
def rbrace : Char := '\x7d'

/-- Scanner for regexes of the shape `open [cls]+ close`: some position holds
the literal `openPat`, then a non-empty run of class characters, then the
literal `closePat`.  Sound for the placeholder regexes used below because in
each of them the first close character is excluded from the class, so greedy
matching with a maximal run is equivalent to the backtracking search. -/
def placeholderScan (openPat : List Char) (cls : Char → Bool) (closePat : List Char) :
    List Char → Bool
  | [] => false
  | c :: rest =>
    (openPat.isPrefixOf (c :: rest) &&
      (let after := (c :: rest).drop openPat.length
       let run := after.takeWhile cls
       !run.isEmpty && closePat.isPrefixOf (after.drop run.length))) ||
    placeholderScan openPat cls closePat rest

/-- Scanner for the regex `= "<[^>]+"` (assignment to a quoted placeholder).
Here the closing quote itself belongs to the class `[^>]`, so the match
succeeds exactly when a quote occurs at distance at least one inside the
maximal `[^>]` run after the opening `= "<`. -/
def eqQuoteScan : List Char → Bool
  | [] => false
  | c :: rest =>
    ((['=', ' ', '"', '<'].isPrefixOf (c :: rest)) &&
      (let run := ((c :: rest).drop 4).takeWhile (fun d => d ≠ '>')
       (run.drop 1).contains '"')) ||
    eqQuoteScan rest

/-- Uppercase-or-underscore characters (the `[A-Z_]` class). -/
def upperUnd (c : Char) : Bool := ('A' ≤ c && c ≤ 'Z') || c == '_'

/-- Template-placeholder detector (`isTemplateCode`, textually identical in
doc-scraper.ts, pdf-scraper.ts and github-scraper.ts): mustache, Jinja,
angle/bracket placeholders, `YOUR_…` tokens, shell interpolation, and the
two config-file placeholder shapes, tested in source order. -/
def isTemplateCode (code : String) : Bool :=
  placeholderScan [lbrace, lbrace] (fun c => c ≠ rbrace) [rbrace, rbrace] code.data ||
  placeholderScan [lbrace, '%'] (fun c => c ≠ '%') ['%', rbrace] code.data ||
  placeholderScan ['<'] upperUnd ['>'] code.data ||
  placeholderScan ['['] upperUnd [']'] code.data ||
  placeholderScan ['Y', 'O', 'U', 'R', '_'] upperUnd [] code.data ||
  placeholderScan ['$', lbrace] (fun c => c ≠ rbrace) [rbrace] code.data ||
  placeholderScan [':', ' ', '<'] (fun c => c ≠ '>') ['>'] code.data ||
  eqQuoteScan code.data

namespace PdfScraper

/-! ## PDF scraper (src/src/scrapers/pdf-scraper.ts) -/

/-- A maximal whitespace run followed by a digit (the `\s+\d` regex tail). -/
def wsThenDigit (cs : List Char) : Bool :=
  let ws := cs.takeWhile isJsWs
  !ws.isEmpty &&
    (match cs.drop ws.length with
     | c :: _ => c.isDigit
     | [] => false)

/-- Consume the maximal `(\.\d+)*` prefix (dot followed by at least one
digit, repeated), returning the remaining characters.  `fuel` bounds the
iteration count; every iteration consumes at least two characters, so
`cs.length` is always sufficient fuel. -/
def dotDigitGroupsAux : Nat → List Char → List Char
  | 0, cs => cs
  | fuel + 1, cs =>
    match cs with
    | '.' :: rest =>
      let ds := rest.takeWhile Char.isDigit
      if ds.isEmpty then cs else dotDigitGroupsAux fuel (rest.drop ds.length)
    | _ => cs

/-- Consume the maximal `(\.\d+)*` prefix. -/
def dotDigitGroups (cs : List Char) : List Char := dotDigitGroupsAux cs.length cs

/-- The regex `^\d+(\.\d+)*\.?\s+[A-Z]` (numbered heading such as `1.2 Title`).
All quantifiers can be matched greedily: after the maximal digit/dot-digit
runs, an optional dot and then mandatory whitespace and an uppercase letter
follow, and none of the fallback orders can succeed where this one fails. -/
def numberedHeadingTest (cs : List Char) : Bool :=
  let ds := cs.takeWhile Char.isDigit
  if ds.isEmpty then false
  else
    let rest := dotDigitGroups (cs.drop ds.length)
    let rest2 := match rest with
      | '.' :: r => r
      | r => r
    let ws := rest2.takeWhile isJsWs
    !ws.isEmpty &&
      (match rest2.drop ws.length with
       | c :: _ => 'A' ≤ c && c ≤ 'Z'
       | [] => false)

/-- The regex `^[A-Z\s]+$`: non-empty and only uppercase letters or whitespace. -/
def allCapsTest (cs : List Char) : Bool :=
  !cs.isEmpty && cs.all (fun c => ('A' ≤ c && c ≤ 'Z') || isJsWs c)

/-- The regex `^(Chapter|Section|Part)\s+\d` with the `i` flag. -/
def chapterHeadingTest (t : String) : Bool :=
  let lc := (jsToLower t).data
  (("chapter").data.isPrefixOf lc && wsThenDigit (lc.drop 7)) ||
  (("section").data.isPrefixOf lc && wsThenDigit (lc.drop 7)) ||
  (("part").data.isPrefixOf lc && wsThenDigit (lc.drop 4))

/-- The regex `^[A-Z][a-z]`: an uppercase letter followed by a lowercase one. -/
def titleCaseStart (cs : List Char) : Bool :=
  match cs with
  | c1 :: c2 :: _ => ('A' ≤ c1 && c1 ≤ 'Z') && ('a' ≤ c2 && c2 ≤ 'z')
  | _ => false

/-- Section-heading detector (pdf-scraper.ts, `isSectionHeading`). -/
def isSectionHeading (line : String) : Bool :=
  let trimmed := jsTrim line
  if jsLen trimmed < 3 || 80 < jsLen trimmed then false
  else if numberedHeadingTest trimmed.data then true
  else if trimmed == jsToUpper trimmed && allCapsTest trimmed.data && 5 < jsLen trimmed then true
  else if chapterHeadingTest trimmed then true
  else if !jsEndsWith trimmed (".") && !jsEndsWith trimmed (",") &&
      titleCaseStart trimmed.data && jsLen trimmed < 50 then true
  else false

/-- The optional `(\s+\d+)?` group followed by a mandatory `:` after a code
label keyword. -/
def afterCodeLabel (cs : List Char) : Bool :=
  match cs with
  | ':' :: _ => true
  | _ =>
    let ws := cs.takeWhile isJsWs
    if ws.isEmpty then false
    else
      let rest := cs.drop ws.length
      let ds := rest.takeWhile Char.isDigit
      if ds.isEmpty then false
      else
        match rest.drop ds.length with
        | ':' :: _ => true
        | _ => false

/-- The regex `^(Example|Code|Listing)(\s+\d+)?:` with the `i` flag. -/
def exampleLabelTest (t : String) : Bool :=
  let lc := (jsToLower t).data
  (("example").data.isPrefixOf lc && afterCodeLabel (lc.drop 7)) ||
  (("code").data.isPrefixOf lc && afterCodeLabel (lc.drop 4)) ||
  (("listing").data.isPrefixOf lc && afterCodeLabel (lc.drop 7))

/-- Code-fence opener detector (pdf-scraper.ts, `isCodeBlockStart`). -/
def isCodeBlockStart (line : String) : Bool :=
  let trimmed := jsTrim line
  jsStartsWith trimmed ("```") || jsStartsWith trimmed ("~~~") || exampleLabelTest trimmed

/-- Code-fence closer detector (pdf-scraper.ts, `isCodeBlockEnd`). -/
def isCodeBlockEnd (line : String) : Bool :=
  jsTrim line == "```" || jsTrim line == "~~~"

/-- Close the current section record, attaching collected code blocks
(pdf-scraper.ts, the two `sections.push` sites inside `extractSections`). -/
def finishSection (title : String) (pageNumber : Nat)
    (curContent curCode : List String) : PdfSection :=
  { title := title
    content := jsTrim (joinNl curContent)
    pageNumber := pageNumber
    codeBlocks := if curCode.isEmpty then none else some curCode }

/-- Line loop of `extractSections`.  State: current section header (title and
page number, `none` before any section started), accumulated content lines,
accumulated finished code blocks, code-capture mode with its accumulated
lines, and the finished sections.  The source tests `isCodeBlockStart`
before testing the capture mode, which is mirrored here. -/
def sectGo (linesPerPage : Nat) :
    List String → Nat → Option (String × Nat) → List String → List String →
    Bool → List String → List PdfSection → List PdfSection
  | [], i, cur, curContent, curCode, inCode, codeAcc, secs =>
    (match cur with
     | some (t, pn) => secs ++ [finishSection t pn curContent curCode]
     | none => secs)
  | line :: rest, i, cur, curContent, curCode, inCode, codeAcc, secs =>
    let pageNumber := i / linesPerPage + 1
    if isCodeBlockStart line then
      sectGo linesPerPage rest (i + 1) cur curContent curCode true [] secs
    else if inCode then
      (if isCodeBlockEnd line then
        sectGo linesPerPage rest (i + 1) cur curContent
          (curCode ++ [joinNl codeAcc]) false codeAcc secs
      else
        sectGo linesPerPage rest (i + 1) cur curContent curCode true
          (codeAcc ++ [line]) secs)
    else if isSectionHeading line then
      let secs2 := match cur with
        | some (t, pn) => secs ++ [finishSection t pn curContent curCode]
        | none => secs
      sectGo linesPerPage rest (i + 1) (some (jsTrim line, pageNumber)) [] [] false codeAcc secs2
    else
      match cur with
      | some _ => sectGo linesPerPage rest (i + 1) cur (curContent ++ [line]) curCode false codeAcc secs
      | none =>
        if (jsTrim line).data.isEmpty then
          sectGo linesPerPage rest (i + 1) none curContent curCode false codeAcc secs
        else
          sectGo linesPerPage rest (i + 1) (some ("Introduction", 1)) [line] curCode false codeAcc secs

/-- Section segmentation of the PDF text (pdf-scraper.ts, `extractSections`).
`linesPerPage` is `Math.ceil(lines.length / totalPages)`; with
`totalPages = 0` the JS code divides by `Infinity` and every line lands on
page one, matching natural-number division by zero here. -/
def extractSections (content : String) (totalPages : Nat) : List PdfSection :=
  let lines := jsSplitNl content
  let linesPerPage := (lines.length + totalPages - 1) / totalPages
  let secs := sectGo linesPerPage lines 0 none [] [] false [] []
  if secs.isEmpty then
    [{ title := "Document Content", content := content, pageNumber := 1, codeBlocks := none }]
  else secs

/-! Language probes of `detectLanguageFromCode`; one predicate per line-anchored
multiline regex, applied to each line of the code. -/

/-- Python probe line: `^(def |class |import |from .+ import |if __name__|print\()`. -/
def pythonProbeLine (l : String) : Bool :=
  jsStartsWith l ("def ") || jsStartsWith l ("class ") || jsStartsWith l ("import ") ||
  (jsStartsWith l ("from ") && jsIncludes (jsDropStr l 6) (" import ")) ||
  jsStartsWith l ("if __name__") || jsStartsWith l ("print(")

/-- JS probe line: `^(const |let |var |function |import |export |async function|=>)`. -/
def jsProbeLine (l : String) : Bool :=
  jsStartsWith l ("const ") || jsStartsWith l ("let ") || jsStartsWith l ("var ") ||
  jsStartsWith l ("function ") || jsStartsWith l ("import ") || jsStartsWith l ("export ") ||
  jsStartsWith l ("async function") || jsStartsWith l ("=>")

/-- Bash probe line: `^(#!\/|echo |export |if \[|for .+ in|while |done$|fi$)`. -/
def bashProbeLine (l : String) : Bool :=
  jsStartsWith l ("#!/") || jsStartsWith l ("echo ") || jsStartsWith l ("export ") ||
  jsStartsWith l ("if [") ||
  (jsStartsWith l ("for ") && jsIncludes (jsDropStr l 5) (" in")) ||
  jsStartsWith l ("while ") || l == "done" || l == "fi"

/-- YAML probe line: `^[a-z_]+:\s*$`. -/
def yamlProbeLine (l : String) : Bool :=
  let run := l.data.takeWhile (fun c => ('a' ≤ c && c ≤ 'z') || c == '_')
  !run.isEmpty &&
    (match l.data.drop run.length with
     | ':' :: rest => rest.all isJsWs
     | _ => false)

/-- SQL probe line: `^(SELECT |INSERT |UPDATE |DELETE |CREATE |ALTER |DROP )` with `i`. -/
def sqlProbeLine (l : String) : Bool :=
  let lc := jsToLower l
  jsStartsWith lc ("select ") || jsStartsWith lc ("insert ") || jsStartsWith lc ("update ") ||
  jsStartsWith lc ("delete ") || jsStartsWith lc ("create ") || jsStartsWith lc ("alter ") ||
  jsStartsWith lc ("drop ")

/-- Go probe line: `^(package |func |import \(|type .+ struct)`. -/
def goProbeLine (l : String) : Bool :=
  jsStartsWith l ("package ") || jsStartsWith l ("func ") || jsStartsWith l ("import (") ||
  (jsStartsWith l ("type ") && jsIncludes (jsDropStr l 6) (" struct"))

/-- Rust probe line: `^(fn |let mut |impl |use |pub fn|struct )`. -/
def rustProbeLine (l : String) : Bool :=
  jsStartsWith l ("fn ") || jsStartsWith l ("let mut ") || jsStartsWith l ("impl ") ||
  jsStartsWith l ("use ") || jsStartsWith l ("pub fn") || jsStartsWith l ("struct ")

/-- Java probe line: `^(public class |private |protected |import java\.)`. -/
def javaProbeLine (l : String) : Bool :=
  jsStartsWith l ("public class ") || jsStartsWith l ("private ") ||
  jsStartsWith l ("protected ") || jsStartsWith l ("import java.")

/-- Some line of the code satisfies the probe (the `m` regex flag). -/
def anyLine (code : String) (p : String → Bool) : Bool := (jsSplitNl code).any p

/-- Shape test of the regex `^\s*\{[\s\S]*\}\s*$`: after trimming, the first
character is a brace and the last is the matching brace. -/
def jsonObjShape (code : String) : Bool :=
  let t := trimData code.data
  (match t.head? with
   | some c => c == lbrace
   | none => false) &&
  (match t.getLast? with
   | some c => c == rbrace
   | none => false)

/-- Shape test of the regex `^\s*\[[\s\S]*\]\s*$`. -/
def jsonArrShape (code : String) : Bool :=
  let t := trimData code.data
  (match t.head? with
   | some c => c == '['
   | none => false) &&
  (match t.getLast? with
   | some c => c == ']'
   | none => false)

/-- Language sniffing from raw code (pdf-scraper.ts, `detectLanguageFromCode`).
`jsonValid` is the external `JSON.parse` success oracle: the source attempts
a parse and falls through to the later probes on failure. -/
def detectLanguageFromCode (jsonValid : String → Bool) (code : String) : Option String :=
  if jsStartsWith code ("#!/usr/bin/env python") || jsStartsWith code ("#!/usr/bin/python") then
    some ("python")
  else if jsStartsWith code ("#!/bin/bash") || jsStartsWith code ("#!/bin/sh") then
    some ("bash")
  else if jsStartsWith code ("#!/usr/bin/env node") then
    some ("javascript")
  else if anyLine code pythonProbeLine then
    some ("python")
  else if anyLine code jsProbeLine then
    (if jsIncludes code (": string") || jsIncludes code (": number") ||
        jsIncludes code ("interface ") then some ("typescript") else some ("javascript"))
  else if anyLine code bashProbeLine then
    some ("bash")
  else if anyLine code yamlProbeLine && jsIncludes code (":") then
    some ("yaml")
  else if (jsonObjShape code || jsonArrShape code) && jsonValid code then
    some ("json")
  else if anyLine code sqlProbeLine then
    some ("sql")
  else if anyLine code goProbeLine then
    some ("go")
  else if anyLine code rustProbeLine then
    some ("rust")
  else if anyLine code javaProbeLine then
    some ("java")
  else none

/-- Extension table of the PDF scraper's `generateFilename`. -/
def pdfExtOf (language : String) : Option String :=
  if language == "python" then some (".py")
  else if language == "javascript" then some (".js")
  else if language == "typescript" then some (".ts")
  else if language == "bash" then some (".sh")
  else if language == "ruby" then some (".rb")
  else if language == "go" then some (".go")
  else if language == "rust" then some (".rs")
  else if language == "java" then some (".java")
  else if language == "yaml" then some (".yaml")
  else if language == "json" then some (".json")
  else if language == "sql" then some (".sql")
  else none

/-- Filename generation (pdf-scraper.ts, `generateFilename`): `undefined` for
a missing (or empty, hence falsy) language or an unknown extension, else
`script`, an optional `_<index+1>` suffix, and the extension. -/
def generateFilename (code : String) (language : Option String) (index : Option Nat) :
    Option String :=
  match language with
  | none => none
  | some l =>
    if l.data.isEmpty then none
    else
      match pdfExtOf l with
      | none => none
      | some ext =>
        some ("script" ++
          (match index with
           | some i => "_" ++ natDec (i + 1)
           | none => "") ++ ext)

/-- Script detector of the PDF scraper (pdf-scraper.ts, `isCompleteScript`).
Unlike the web-scraper copy, the bash branch tests only `'bash'`. -/
def isCompleteScript (code : String) (language : Option String) : Bool :=
  if jsStartsWith code ("#!/") then true
  else if language == some "python" && pythonScriptMarkers code then true
  else if language == some "bash" && bashScriptMarkers code then true
  else if (language == some "javascript" || language == some "typescript")
      && jsScriptMarkers code then true
  else if 20 ≤ (jsSplitNl code).length then true
  else false

/-- Enrich one extracted code string (pdf-scraper.ts, `convertToCodeBlock`). -/
def convertToCodeBlock (jsonValid : String → Bool) (code sectionTitle : String)
    (index : Nat) : CodeBlock :=
  let language := detectLanguageFromCode jsonValid code
  { code := code
    language := language
    filename := generateFilename code language (some index)
    isScript := isCompleteScript code language
    isTemplate := isTemplateCode code
    title := some sectionTitle }

/-- Overview text of the whole document (pdf-scraper.ts, `formatDocumentOverview`). -/
def formatDocumentOverview (pd : PdfData) : String :=
  let lines := ["# " ++ pd.title, "", "**Pages:** " ++ natDec pd.pages, ""]
  let lines := if pd.metadata.isEmpty then lines
    else lines ++ ["## Document Information", ""] ++
      pd.metadata.map (fun kv => "- **" ++ kv.1 ++ ":** " ++ kv.2) ++ [""]
  let lines := if 1 < pd.sections.length then
    lines ++ ["## Table of Contents", ""] ++
      pd.sections.map (fun s => "- " ++ s.title ++ " (page " ++ natDec s.pageNumber ++ ")")
  else lines
  joinNl lines

/-- Rendered text of one section (pdf-scraper.ts, `formatSection`). -/
def formatSection (s : PdfSection) : String :=
  let lines := ["# " ++ s.title, "*Page " ++ natDec s.pageNumber ++ "*", "", s.content]
  let lines := match s.codeBlocks with
    | some cbs =>
      if cbs.isEmpty then lines
      else lines ++ ["", "## Code Examples", ""] ++
        (cbs.map (fun c => ["```", c, "```", ""])).flatten
    | none => lines
  joinNl lines

/-- The document-overview unit pushed first by `convertPdfToDocPages`.
The source sets no `codeExamples`/`codeBlocks` fields on it; absent lists
are modelled as `[]`. -/
def overviewDoc (pd : PdfData) (skillName : String) : DocPage :=
  { id := "docs-1"
    source := skillName
    title := pd.title
    content := formatDocumentOverview pd
    snippet := "PDF document with " ++ natDec pd.pages ++ " pages"
    type := PageType.guide
    url := ""
    searchableText := jsSubstrTo (jsToLower (pd.title ++ " " ++ pd.content)) 10000
    category := some "overview"
    apiReference := none
    codeExamples := []
    codeBlocks := [] }

/-- Section loop of `convertPdfToDocPages`: sections shorter than 50
characters are skipped, others append a unit whose id counts the units
collected so far. -/
def pdfSectionsGo (jsonValid : String → Bool) (skillName : String) :
    List PdfSection → List DocPage → List DocPage
  | [], docs => docs
  | s :: rest, docs =>
    if jsLen s.content < 50 then pdfSectionsGo jsonValid skillName rest docs
    else
      let codeExamples := s.codeBlocks.getD []
      let codeBlocks := codeExamples.mapIdx
        (fun i code => convertToCodeBlock jsonValid code s.title i)
      let d : DocPage :=
        { id := "docs-" ++ natDec (docs.length + 1)
          source := skillName
          title := s.title
          content := formatSection s
          snippet := jsSubstrTo s.content 200 ++ "..."
          type := if 0 < codeExamples.length then PageType.examplePage else PageType.guide
          url := ""
          searchableText := jsToLower (s.title ++ " " ++ s.content)
          category := some "content"
          apiReference := none
          codeExamples := codeExamples
          codeBlocks := codeBlocks }
      pdfSectionsGo jsonValid skillName rest (docs ++ [d])

/-- Conversion of parsed PDF data to documentation units
(pdf-scraper.ts, `convertPdfToDocPages`). -/
def convertPdfToDocPages (jsonValid : String → Bool) (pd : PdfData)
    (skillName : String) : List DocPage :=
  pdfSectionsGo jsonValid skillName pd.sections [overviewDoc pd skillName]

/-- The `pagesScraped` field of a successful PDF job result
(pdf-scraper.ts, `scrapePdf`, result object: `pagesScraped: docs.length`). -/
def pdfPagesScraped (jsonValid : String → Bool) (pd : PdfData) (skillName : String) : Nat :=
  (convertPdfToDocPages jsonValid pd skillName).length

end PdfScraper

namespace GithubScraper

/-! ## GitHub scraper (src/src/scrapers/github-scraper.ts) -/

/-- Script detector of the GitHub scraper (github-scraper.ts,
`isCompleteScript`): the language tag is lowercased and the abbreviated
tags are accepted alongside the full names. -/
def isCompleteScript (code : String) (language : Option String) : Bool :=
  if jsStartsWith code ("#!/") then true
  else
    let lang := language.map jsToLower
    if (lang == some "python" || lang == some "py") && pythonScriptMarkers code then true
    else if (lang == some "bash" || lang == some "sh" || lang == some "shell")
        && bashScriptMarkers code then true
    else if (lang == some "javascript" || lang == some "js" || lang == some "typescript"
        || lang == some "ts") && jsScriptMarkers code then true
    else if 20 ≤ (jsSplitNl code).length then true
    else false

end GithubScraper

namespace SkillBuilder

/-! ## Skill builder (src/skill-builder.ts, combined-reference variant) -/

/-- Lowercase letters and digits (the `[a-z0-9]` class). -/
def isLowerDigit (c : Char) : Bool := ('a' ≤ c && c ≤ 'z') || ('0' ≤ c && c ≤ '9')

/-- Replacement pass of `replace(/[^a-z0-9]+/g, '_')`: every maximal run of
characters outside the class becomes a single underscore.  The flag records
whether the previous character was part of such a run. -/
def slugGo : Bool → List Char → List Char
  | _, [] => []
  | prevRun, c :: rest =>
    if isLowerDigit c then c :: slugGo false rest
    else if prevRun then slugGo true rest
    else '_' :: slugGo true rest

/-- Title slug: `title.toLowerCase().replace(/[^a-z0-9]+/g, '_')`. -/
def slugify (t : String) : String := String.mk (slugGo false (jsToLower t).data)

/-- Positional default base name: `helper`, `helper_2`, … (stem `helper`) or
`template`, `template_2`, … (stem `template`). -/
def positionalBase (stem : String) (index : Nat) : String :=
  stem ++ (if 0 < index then "_" ++ natDec (index + 1) else "")

/-- Extension table of `generateScriptFilename`. -/
def scriptExtOf (language : String) : Option String :=
  if language == "python" then some (".py")
  else if language == "javascript" then some (".js")
  else if language == "typescript" then some (".ts")
  else if language == "bash" then some (".sh")
  else if language == "shell" then some (".sh")
  else if language == "ruby" then some (".rb")
  else if language == "go" then some (".go")
  else if language == "rust" then some (".rs")
  else if language == "java" then some (".java")
  else none

/-- Extension choice `script.language ? (extMap[script.language] || '.py') : '.py'`
(`undefined` and the empty string are both falsy). -/
def scriptExt (language : Option String) : String :=
  match language with
  | none => ".py"
  | some l => if l.data.isEmpty then ".py" else (scriptExtOf l).getD (".py")

/-- Script filename (skill-builder.ts, `generateScriptFilename`): slugified
title truncated to 20 characters, or the positional `helper` default, plus
the language extension. -/
def generateScriptFilename (script : CodeBlock) (index : Nat) : String :=
  let baseName := match script.title with
    | some t =>
      if t.data.isEmpty then positionalBase ("helper") index
      else jsSubstrTo (slugify t) 20
    | none => positionalBase ("helper") index
  baseName ++ scriptExt script.language

/-- Template filename (skill-builder.ts, `generateTemplateFilename`). -/
def generateTemplateFilename (template : CodeBlock) (index : Nat) : String :=
  (match template.title with
    | some t =>
      if t.data.isEmpty then positionalBase ("template") index
      else jsSubstrTo (slugify t) 20
    | none => positionalBase ("template") index) ++ ".txt"

/-- Model of `filename.replace(/\.[^.]+$/, '')`: remove a final dot-extension
(at least one non-dot character after the last dot), else return unchanged.
In the reversed character list, `w` holds the characters after the last dot
and `rest` starts at that dot; an empty `rest` means there is no dot (no
match) and an empty `w` means the dot is final (`[^.]+` cannot match). -/
def stripLastExt (fn : String) : String :=
  let r := fn.data.reverse
  let w := r.takeWhile (fun c => c ≠ '.')
  let rest := r.dropWhile (fun c => c ≠ '.')
  if rest.isEmpty then fn
  else if w.isEmpty then fn
  else String.mk ((rest.drop 1).reverse)

/-- Model of `filename.substring(filename.lastIndexOf('.'))`: the last dot
and everything after it; without a dot, `lastIndexOf` is `-1` and
`substring(-1)` clamps to the whole string. -/
def extFromLastDot (fn : String) : String :=
  let r := fn.data.reverse
  let w := r.takeWhile (fun c => c ≠ '.')
  let rest := r.dropWhile (fun c => c ≠ '.')
  if rest.isEmpty then fn
  else String.mk ('.' :: w.reverse)

/-- Model of `filename.replace(/\.txt$/, '')`. -/
def stripTxtExt (fn : String) : String :=
  if ['.', 't', 'x', 't'].isSuffixOf fn.data then
    String.mk (fn.data.take (fn.data.length - 4))
  else fn

/-- Collision-resolution loop shared by the scripts and templates
directories: while the candidate filename is taken, try
`` `${baseName}_${counter}${ext}` `` with the next counter.  The source
queries a non-shrinking `Set`; since the successive candidates are pairwise
distinct (`resolveCollision_shape` together with `natDec_inj`), a candidate
is never queried twice, so erasing each tested candidate leaves every later
membership test unchanged while giving the recursion a decreasing measure. -/
def resolveCollision (used : List String) (base ext filename : String) (counter : Nat) : String :=
  if h : filename ∈ used then
    resolveCollision (used.erase filename) base ext
      (base ++ "_" ++ natDec counter ++ ext) (counter + 1)
  else filename
termination_by used.length
decreasing_by
  have h1 := List.length_erase_of_mem h
  have h2 : 0 < used.length := List.length_pos.mpr (List.ne_nil_of_mem h)
  omega

/-- Emission loop of `generateScriptsDirectory`: one file per runnable
non-template block, under `scripts/`, with collision-resolved filenames.
`used` is the set of already-used filenames, `i` the positional index. -/
def scriptsGo : List CodeBlock → Nat → List String → List SkillFile
  | [], _, _ => []
  | script :: rest, i, used =>
    let filename0 := generateScriptFilename script i
    let ext := if jsIncludes filename0 (".") then extFromLastDot filename0 else ".py"
    let baseName := stripLastExt filename0
    let filename := resolveCollision used baseName ext filename0 1
    { path := "scripts/" ++ filename, content := script.code, size := jsLen script.code } ::
      scriptsGo rest (i + 1) (filename :: used)

/-- Scripts directory (skill-builder.ts, `generateScriptsDirectory`):
the blocks with `isScript && !isTemplate`. -/
def generateScriptsDirectory (codeBlocks : List CodeBlock) : List SkillFile :=
  scriptsGo (codeBlocks.filter (fun cb => cb.isScript && !cb.isTemplate)) 0 []

/-- Emission loop of `generateTemplatesDirectory`. -/
def templatesGo : List CodeBlock → Nat → List String → List SkillFile
  | [], _, _ => []
  | template :: rest, i, used =>
    let filename0 := generateTemplateFilename template i
    let baseName := stripTxtExt filename0
    let filename := resolveCollision used baseName (".txt") filename0 1
    { path := "templates/" ++ filename, content := template.code, size := jsLen template.code } ::
      templatesGo rest (i + 1) (filename :: used)

/-- Templates directory (skill-builder.ts, `generateTemplatesDirectory`):
the blocks with `isTemplate`, whatever `isScript` is. -/
def generateTemplatesDirectory (codeBlocks : List CodeBlock) : List SkillFile :=
  templatesGo (codeBlocks.filter (fun cb => cb.isTemplate)) 0 []

/-- Append a doc to its category bucket, creating the bucket at the end on
first use (JS object insertion order for the non-numeric category keys). -/
def insertGroup : List (String × List DocPage) → String → DocPage → List (String × List DocPage)
  | [], key, d => [(key, [d])]
  | (k, ds) :: rest, key, d =>
    if k == key then (k, ds ++ [d]) :: rest
    else (k, ds) :: insertGroup rest key d

/-- Category grouping (skill-builder.ts, `groupByCategory`); a missing
category falls into the `general` bucket. -/
def groupByCategory (docs : List DocPage) : List (String × List DocPage) :=
  docs.foldl (fun acc d => insertGroup acc (d.category.getD ("general")) d) []

/-- Fixed source-kind sentence fragment (skill-builder.ts,
`getSourceDescription`; the default arm is unreachable for the three
declared job types). -/
def getSourceDescription : JobType → String
  | JobType.scrapeDocs => "documentation website scraping"
  | JobType.scrapeGithub => "GitHub repository analysis"
  | JobType.scrapePdf => "PDF document extraction"

/-- Model of `category.charAt(0).toUpperCase() + category.slice(1)`. -/
def capitalizeFirst (s : String) : String :=
  match s.data with
  | [] => ""
  | c :: rest => String.mk (Char.toUpper c :: rest)

/-- Primary descriptor document (skill-builder.ts, `generateSkillMd`). -/
def generateSkillMd (name description : String) (docs : List DocPage)
    (sourceType : JobType) (sourceUrl : Option String) : String :=
  let lines : List String :=
    ["# " ++ name, "", description, "", "## Overview", "",
     "This skill contains documentation for " ++ name ++
       ", automatically generated from " ++ getSourceDescription sourceType ++ ".", "",
     "## Statistics", "",
     "- **Total Pages:** " ++ natDec docs.length,
     "- **API References:** " ++ natDec (docs.filter (fun d => d.type == PageType.api)).length,
     "- **Guides:** " ++ natDec (docs.filter (fun d => d.type == PageType.guide)).length,
     "- **Examples:** " ++ natDec (docs.filter (fun d => d.type == PageType.examplePage)).length,
     ""]
  let lines := match sourceUrl with
    | some u =>
      if u.data.isEmpty then lines
      else lines ++ ["## Source", "", "[" ++ u ++ "](" ++ u ++ ")", ""]
    | none => lines
  let categories := groupByCategory docs
  let lines := if 1 < categories.length then
      lines ++ ["## Contents", ""] ++
        categories.map (fun cg => "- **" ++ cg.1 ++ "** (" ++ natDec cg.2.length ++ " pages)") ++
        [""]
    else lines
  let gettingStarted := docs.find? (fun d =>
    jsIncludes (jsToLower d.title) ("getting started") ||
    jsIncludes (jsToLower d.title) ("quick start") ||
    jsIncludes (jsToLower d.title) ("introduction"))
  let lines := match gettingStarted with
    | some d => lines ++ ["## Getting Started", "", d.snippet, "", "See: " ++ d.title, ""]
    | none => lines
  let guideDocs := (docs.filter (fun d => d.type == PageType.guide)).take 5
  let lines := if guideDocs.isEmpty then lines
    else lines ++ ["## Key Topics", ""] ++
      guideDocs.map (fun d => "- **" ++ d.title ++ "**: " ++ jsSubstrTo d.snippet 100 ++ "...") ++
      [""]
  let lines := lines ++ ["---", "", "*Generated by Skill Seekers MCP Server*"]
  joinNl lines

/-- Per-unit entry of a category section in `reference.md`. -/
def refDocEntry (d : DocPage) : List String :=
  ["### " ++ d.title, ""] ++
  (if d.url.data.isEmpty then [] else ["*Source: " ++ d.url ++ "*", ""]) ++
  [d.content, ""] ++
  (if d.codeExamples.isEmpty then []
   else ["#### Code Examples", ""] ++
     ((d.codeExamples.take 3).map (fun e => ["```", e, "```", ""])).flatten) ++
  ["---", ""]

/-- One category section of `reference.md`. -/
def refCategorySection (cg : String × List DocPage) : List String :=
  ["## " ++ capitalizeFirst cg.1, "",
   "*" ++ natDec cg.2.length ++ " pages in this section*", ""] ++
  (cg.2.map refDocEntry).flatten

/-- One API entry of the API-reference section of `reference.md`. -/
def refApiEntry (d : DocPage) : List String :=
  ["### " ++ d.title, ""] ++
  (match d.apiReference with
   | some r =>
     (if jsTruthy r.signature then ["```", r.signature.getD (""), "```", ""] else []) ++
     (if r.parameters.isEmpty then []
      else ["#### Parameters", ""] ++ r.parameters.map (fun p => "- " ++ p) ++ [""]) ++
     (if jsTruthy r.returns then ["**Returns:** " ++ r.returns.getD (""), ""] else []) ++
     (if jsTruthy r.exampleStr then
        ["#### Example", "", "```", r.exampleStr.getD (""), "```", ""]
      else [])
   | none => []) ++
  [jsSubstrTo d.content 500, ""] ++
  (if d.url.data.isEmpty then [] else ["*See: " ++ d.url ++ "*", ""]) ++
  ["---", ""]

/-- Combined reference document (skill-builder.ts, `generateReferenceFile`);
`null` when there is nothing to render. -/
def generateReferenceFile (categories : List (String × List DocPage))
    (apiDocs : List DocPage) : Option String :=
  let allDocs := (categories.map Prod.snd).flatten
  if allDocs.isEmpty && apiDocs.isEmpty then none
  else some (joinNl
    (["# Reference Documentation", ""] ++
     (categories.map refCategorySection).flatten ++
     (if apiDocs.isEmpty then []
      else ["## API Reference", "", "*" ++ natDec apiDocs.length ++ " API entries*", ""] ++
        (apiDocs.map refApiEntry).flatten)))

/-- Per-unit entry of `examples.md`; units without code examples are skipped. -/
def exampleDocEntry (d : DocPage) : List String :=
  if d.codeExamples.isEmpty then []
  else
    ["## " ++ d.title, ""] ++
    (d.codeExamples.mapIdx (fun i e =>
      (if 1 < d.codeExamples.length then ["### Example " ++ natDec (i + 1), ""] else []) ++
      ["```", e, "```", ""])).flatten ++
    (if d.url.data.isEmpty then [] else ["*Source: " ++ d.url ++ "*", ""]) ++
    ["---", ""]

/-- Combined examples document (skill-builder.ts, `generateExamplesFile`). -/
def generateExamplesFile (docs : List DocPage) : String :=
  joinNl (["# Code Examples", "",
    "*" ++ natDec docs.length ++ " pages with examples*", ""] ++
    (docs.map exampleDocEntry).flatten)

/-- The generated file set of `buildSkill` (skill-builder.ts, lines 25–78):
`SKILL.md`, the optional combined `reference.md`, the optional `examples.md`,
then the scripts and templates directories, in source push order. -/
def buildSkillFiles (name description : String) (docs : List DocPage)
    (sourceType : JobType) (sourceUrl : Option String) : List SkillFile :=
  let skillMd := generateSkillMd name description docs sourceType sourceUrl
  let files := [{ path := "SKILL.md", content := skillMd, size := jsLen skillMd : SkillFile }]
  let categories := groupByCategory docs
  let apiDocs := docs.filter (fun d => d.type == PageType.api)
  let files := files ++
    (match generateReferenceFile categories apiDocs with
     | some rc => [{ path := "reference.md", content := rc, size := jsLen rc : SkillFile }]
     | none => [])
  let exampleDocs := docs.filter (fun d =>
    d.type == PageType.examplePage || !d.codeExamples.isEmpty)
  let files := files ++
    (if exampleDocs.isEmpty then []
     else
       let ec := generateExamplesFile exampleDocs
       [{ path := "examples.md", content := ec, size := jsLen ec : SkillFile }])
  let allCodeBlocks := (docs.map DocPage.codeBlocks).flatten
  let files := files ++ generateScriptsDirectory allCodeBlocks
  let files := files ++ generateTemplatesDirectory allCodeBlocks
  files

/-- Skill-id name part: `name.toLowerCase().replace(/[^a-z0-9]/g, '-')`
(every single out-of-class character becomes a dash). -/
def sanitizeIdName (name : String) : String :=
  String.mk ((jsToLower name).data.map (fun c => if isLowerDigit c then c else '-'))

/-- Summary statistics of a build. -/
structure SkillStats where
  totalPages : Nat
  categories : Nat
  codeExamples : Nat
deriving DecidableEq, Repr

/-- Skill package descriptor.  `createdAt` is an opaque timestamp. -/
structure SkillPackage where
  id : String
  name : String
  description : String
  files : List SkillFile
  createdAt : Nat
  sourceType : JobType
  sourceUrl : Option String
  stats : SkillStats
deriving DecidableEq, Repr

/-- Package assembly (skill-builder.ts, `buildSkill`).  The two effectful
inputs are passed explicitly: `uuid` is the `uuidv4()` draw whose first six
characters suffix the id, and `now` the `new Date()` creation instant.
Archive encoding and blob-store persistence are external collaborators and
not part of the package value. -/
def buildSkill (name description : String) (docs : List DocPage) (sourceType : JobType)
    (sourceUrl : Option String) (uuid : String) (now : Nat) : SkillPackage :=
  { id := "skill-" ++ sanitizeIdName name ++ "-" ++ jsSubstrTo uuid 6
    name := name
    description := description
    files := buildSkillFiles name description docs sourceType sourceUrl
    createdAt := now
    sourceType := sourceType
    sourceUrl := sourceUrl
    stats := {
      totalPages := docs.length
      categories := (groupByCategory docs).length
      codeExamples := docs.foldl (fun sum d => sum + d.codeExamples.length) 0 } }

end SkillBuilder

/-! # Verification -/

/-! ## Decimal rendering -/

theorem digitVal_digitChar {d : Nat} (h : d < 10) : digitVal (digitChar d) = d := by
  interval_cases d <;> rfl

theorem decParse_cons (a : Nat) (c : Char) (cs : List Char) :
    List.foldl (fun a c => 10 * a + digitVal c) a (c :: cs)
      = List.foldl (fun a c => 10 * a + digitVal c) (10 * a + digitVal c) cs := rfl

theorem decParse_decDigitsAux :
    ∀ fuel n, n < fuel →
      ∀ a, List.foldl (fun a c => 10 * a + digitVal c) a (decDigitsAux fuel n)
        = a * 10 ^ (decDigitsAux fuel n).length + n := by
  intro fuel
  induction fuel with
  | zero => intro n h; omega
  | succ f ih =>
    intro n h a
    by_cases h10 : n < 10
    · simp [decDigitsAux, h10, decParse_cons, digitVal_digitChar h10]
      ring
    · have hrec : n / 10 < f := by omega
      simp only [decDigitsAux, if_neg h10, List.foldl_append]
      rw [ih (n / 10) hrec a]
      have hm : n % 10 < 10 := Nat.mod_lt _ (by omega)
      simp [decParse_cons, digitVal_digitChar hm, List.length_append, pow_succ]
      have := Nat.div_add_mod n 10
      ring_nf
      omega

theorem decParse_decDigits (n : Nat) : decParse (decDigits n) = n := by
  have h := decParse_decDigitsAux (n + 1) n (by omega) 0
  simpa [decParse, decDigits] using h

theorem decDigits_inj {a b : Nat} (h : decDigits a = decDigits b) : a = b := by
  have ha := decParse_decDigits a
  have hb := decParse_decDigits b
  rw [h] at ha
  omega

theorem decDigitsAux_ne_nil : ∀ fuel n, n < fuel → decDigitsAux fuel n ≠ [] := by
  intro fuel
  cases fuel with
  | zero => intro n h; omega
  | succ f =>
    intro n h
    by_cases h10 : n < 10 <;> simp [decDigitsAux, h10]

theorem decDigits_ne_nil (n : Nat) : decDigits n ≠ [] :=
  decDigitsAux_ne_nil (n + 1) n (by omega)

theorem digitChar_mem (d : Nat) :
    digitChar d ∈ (['0', '1', '2', '3', '4', '5', '6', '7', '8', '9'] : List Char) := by
  unfold digitChar
  split <;> decide

theorem decDigitsAux_digits :
    ∀ fuel n c, c ∈ decDigitsAux fuel n →
      c ∈ (['0', '1', '2', '3', '4', '5', '6', '7', '8', '9'] : List Char) := by
  intro fuel
  induction fuel with
  | zero => intro n c h; simp [decDigitsAux] at h
  | succ f ih =>
    intro n c h
    by_cases h10 : n < 10
    · simp [decDigitsAux, h10] at h
      subst h; exact digitChar_mem n
    · simp only [decDigitsAux, if_neg h10, List.mem_append, List.mem_singleton] at h
      rcases h with h | h
      · exact ih _ _ h
      · subst h; exact digitChar_mem (n % 10)

theorem decDigits_digits {n : Nat} {c : Char} (h : c ∈ decDigits n) :
    c ∈ (['0', '1', '2', '3', '4', '5', '6', '7', '8', '9'] : List Char) :=
  decDigitsAux_digits (n + 1) n c h

/-! ## Basic facts about strings as character lists -/

theorem strData_append (s t : String) : (s ++ t).data = s.data ++ t.data := by
  cases s; cases t; rfl

theorem strEq_of_data {s t : String} (h : s.data = t.data) : s = t := by
  cases s; cases t; cases h; rfl

theorem strData_inj {s t : String} (h : s = t) : s.data = t.data := by
  rw [h]

theorem strMk_data (s : String) : String.mk s.data = s := by
  cases s; rfl

theorem natDec_inj {a b : Nat} (h : natDec a = natDec b) : a = b := by
  have := strData_inj h
  simp only [natDec] at this
  exact decDigits_inj this

theorem strAppend_left_cancel {s a b : String} (h : s ++ a = s ++ b) : a = b := by
  have hd := strData_inj h
  rw [strData_append, strData_append] at hd
  exact strEq_of_data (List.append_cancel_left hd)

theorem append_ne_append_head {s t : String} {c c' : Char} {cs cs' : List Char}
    (hs : s.data = c :: cs) (ht : t.data = c' :: cs') (hcc : c ≠ c')
    (n m : String) : s ++ n ≠ t ++ m := by
  intro h
  have hd := strData_inj h
  rw [strData_append, strData_append, hs, ht] at hd
  simp only [List.cons_append, List.cons.injEq] at hd
  exact hcc hd.1

theorem strAppend_empty (s : String) : s ++ "" = s := by
  apply strEq_of_data
  rw [strData_append]
  simp

theorem infixOfData_singleton (a : Char) :
    ∀ cs : List Char, infixOfData [a] cs = true ↔ a ∈ cs := by
  intro cs
  induction cs with
  | nil => simp [infixOfData]
  | cons c rest ih =>
    simp only [infixOfData, List.isPrefixOf, Bool.or_eq_true, ih]
    constructor
    · rintro (h | h)
      · simp only [Bool.and_eq_true, beq_iff_eq] at h
        simp [h.1]
      · simp [h]
    · intro h
      rcases List.mem_cons.mp h with h | h
      · left; simp [h]
      · right; exact h

/-! ## C1: page-type classification -/

/-- C1: the page-type classifier is a total deterministic function into
api/guide/example (totality and determinism are inherent in the functional
embedding; the first conjunct makes the three-valued range explicit); every
URL whose lower-cased form contains `/api/` classifies as `api` regardless of
content (in particular when the content matches `example:`); and `guide` is
returned exactly when neither the api condition nor the example condition
holds. -/
theorem c1_determinePageType_spec (url content : String) :
    (DocScraper.determinePageType url content = PageType.api ∨
     DocScraper.determinePageType url content = PageType.guide ∨
     DocScraper.determinePageType url content = PageType.examplePage) ∧
    (jsIncludes (jsToLower url) ("/api/") = true →
      DocScraper.determinePageType url content = PageType.api) ∧
    (DocScraper.determinePageType url content = PageType.guide ↔
      DocScraper.apiCond url content = false ∧
      DocScraper.exampleCond url content = false) := by
  refine ⟨?_, ?_, ?_⟩
  · cases h : DocScraper.determinePageType url content <;> simp
  · intro h
    simp [DocScraper.determinePageType, DocScraper.apiCond, h]
  · constructor
    · intro h
      by_cases ha : DocScraper.apiCond url content <;>
        by_cases he : DocScraper.exampleCond url content <;>
          simp_all [DocScraper.determinePageType]
    · rintro ⟨ha, he⟩
      simp [DocScraper.determinePageType, ha, he]

/-- C1 witness: the URL `/api/foo` with content matching `example:`
classifies as `api`. -/
theorem c1_determinePageType_witness :
    DocScraper.determinePageType "https://x.com/api/foo" "example: hi" = PageType.api :=
  (c1_determinePageType_spec "https://x.com/api/foo" "example: hi").2.1 (by decide)

/-! ## C6: web-page quality gate -/

/-- C6: a page whose normalized content has exactly 50 characters passes the
quality gate when its title is non-empty; 49 characters are rejected; an
empty title is rejected regardless of content length; and a rejected page
appends no unit (it is skipped without error — rejection is the `none`
result, not an exception). -/
theorem c6_quality_gate (configName : String)
    (categories : Option (List (String × List String)))
    (docs : List DocPage) (p : DocScraper.RawPage) :
    (p.title.data ≠ [] → jsLen p.content = 50 →
      (DocScraper.processPage configName categories docs.length p).isSome = true) ∧
    (jsLen p.content = 49 →
      DocScraper.processPage configName categories docs.length p = none) ∧
    (p.title.data = [] →
      DocScraper.processPage configName categories docs.length p = none) ∧
    (DocScraper.processPage configName categories docs.length p = none →
      DocScraper.processStep configName categories docs p = docs) := by
  refine ⟨?_, ?_, ?_, ?_⟩
  · intro ht hc
    simp [DocScraper.processPage, ht, hc]
  · intro hc
    simp [DocScraper.processPage, hc]
  · intro ht
    simp [DocScraper.processPage, ht]
  · intro hnone
    simp [DocScraper.processStep, hnone]

/-- C6 witness: at a concrete page with a non-empty title and exactly 50
characters of content a unit is produced, and at a 49-character page the
empty-handed step leaves the unit list unchanged. -/
theorem c6_quality_gate_witness :
    (DocScraper.processPage "n" none 0
      ⟨"u", "T", "01234567890123456789012345678901234567890123456789", [], [],
        ⟨none, [], none, none, none⟩⟩).isSome = true ∧
    DocScraper.processStep "n" none []
      ⟨"u", "T", "0123456789012345678901234567890123456789012345678", [], [],
        ⟨none, [], none, none, none⟩⟩ = [] := by
  constructor
  · exact (c6_quality_gate "n" none [] _).1 (by decide) (by decide)
  · exact (c6_quality_gate "n" none [] _).2.2.2 ((c6_quality_gate "n" none [] _).2.1 (by decide))

/-! ## C7: script detection line thresholds -/

/-- C7: every code string with at least 20 lines is classified a complete
script by all three `isCompleteScript` copies, whatever the language tag;
and a 3-line code string without a shebang and with none of the
language-specific markers (python/bash/JS branch conditions all false) is
rejected by all three, for any or no language tag. -/
theorem c7_isCompleteScript_spec (code : String) (language : Option String) :
    (20 ≤ (jsSplitNl code).length →
      DocScraper.isCompleteScript code language = true ∧
      PdfScraper.isCompleteScript code language = true ∧
      GithubScraper.isCompleteScript code language = true) ∧
    ((jsSplitNl code).length = 3 → jsStartsWith code ("#!/") = false →
      pythonScriptMarkers code = false → bashScriptMarkers code = false →
      jsScriptMarkers code = false →
      DocScraper.isCompleteScript code language = false ∧
      PdfScraper.isCompleteScript code language = false ∧
      GithubScraper.isCompleteScript code language = false) := by
  constructor
  · intro h
    refine ⟨?_, ?_, ?_⟩ <;>
      simp [DocScraper.isCompleteScript, PdfScraper.isCompleteScript,
        GithubScraper.isCompleteScript, h]
  · intro h3 hsh hpy hbash hjs
    refine ⟨?_, ?_, ?_⟩ <;>
      simp [DocScraper.isCompleteScript, PdfScraper.isCompleteScript,
        GithubScraper.isCompleteScript, h3, hsh, hpy, hbash, hjs]

/-- C7 witness: a 20-line code string is accepted by all three detectors and
the 3-line marker-free snippet `a\nb\nc` is rejected by all three, with a
python tag on the rejected one. -/
theorem c7_isCompleteScript_witness :
    GithubScraper.isCompleteScript (joinNl (List.replicate 20 "x")) none = true ∧
    DocScraper.isCompleteScript "a\nb\nc" (some "python") = false := by
  constructor
  · exact ((c7_isCompleteScript_spec (joinNl (List.replicate 20 "x")) none).1 (by decide)).2.2
  · exact ((c7_isCompleteScript_spec "a\nb\nc" (some "python")).2
      (by decide) (by decide) (by decide) (by decide) (by decide)).1

/-! ## C9: determinism of the package builder -/

/-- C9: two builds from the same name, description and ordered unit list
produce identical file sets (paths, contents and sizes) and identical
statistics; only the id (through the random uuid draw) and the creation
timestamp depend on the per-run effects, the id keeping its deterministic
`skill-<sanitized name>-` prefix. -/
theorem c9_buildSkill_deterministic (name description : String) (docs : List DocPage)
    (sourceType : JobType) (sourceUrl : Option String)
    (uuid1 uuid2 : String) (now1 now2 : Nat) :
    (SkillBuilder.buildSkill name description docs sourceType sourceUrl uuid1 now1).files
      = (SkillBuilder.buildSkill name description docs sourceType sourceUrl uuid2 now2).files ∧
    (SkillBuilder.buildSkill name description docs sourceType sourceUrl uuid1 now1).stats
      = (SkillBuilder.buildSkill name description docs sourceType sourceUrl uuid2 now2).stats ∧
    (SkillBuilder.buildSkill name description docs sourceType sourceUrl uuid1 now1).id
      = "skill-" ++ SkillBuilder.sanitizeIdName name ++ "-" ++ jsSubstrTo uuid1 6 ∧
    (SkillBuilder.buildSkill name description docs sourceType sourceUrl uuid1 now1).createdAt
      = now1 :=
  ⟨rfl, rfl, rfl, rfl⟩

/-! ## C2: script/template partition -/

theorem scriptsGo_contents :
    ∀ (ss : List CodeBlock) (i : Nat) (used : List String),
      (SkillBuilder.scriptsGo ss i used).map SkillFile.content = ss.map CodeBlock.code := by
  intro ss
  induction ss with
  | nil => intro i used; rfl
  | cons s rest ih =>
    intro i used
    simp only [SkillBuilder.scriptsGo, List.map_cons, List.cons.injEq]
    exact ⟨trivial, ih _ _⟩

theorem templatesGo_contents :
    ∀ (ss : List CodeBlock) (i : Nat) (used : List String),
      (SkillBuilder.templatesGo ss i used).map SkillFile.content = ss.map CodeBlock.code := by
  intro ss
  induction ss with
  | nil => intro i used; rfl
  | cons s rest ih =>
    intro i used
    simp only [SkillBuilder.templatesGo, List.map_cons, List.cons.injEq]
    exact ⟨trivial, ih _ _⟩

/-- C2: the scripts area emits exactly the blocks with `isScript` and not
`isTemplate` (in order, one file per block, carrying the block's code), the
templates area exactly the blocks with `isTemplate` regardless of `isScript`,
and the two selection predicates are mutually exclusive, so no block is
emitted to both areas. -/
theorem c2_partition (codeBlocks : List CodeBlock) :
    (SkillBuilder.generateScriptsDirectory codeBlocks).map SkillFile.content
      = (codeBlocks.filter (fun cb => cb.isScript && !cb.isTemplate)).map CodeBlock.code ∧
    (SkillBuilder.generateTemplatesDirectory codeBlocks).map SkillFile.content
      = (codeBlocks.filter (fun cb => cb.isTemplate)).map CodeBlock.code ∧
    ∀ cb : CodeBlock, ¬((cb.isScript && !cb.isTemplate) = true ∧ cb.isTemplate = true) := by
  refine ⟨scriptsGo_contents _ 0 [], templatesGo_contents _ 0 [], ?_⟩
  rintro cb ⟨h1, h2⟩
  simp [h2] at h1

/-! ## C4: snippet policy -/

/-- C4 (amended): every unit produced by the web-page adapter has
`snippet = content.substring(0, 200) + "..."`, computed from the unit's own
content at creation time.  (As stated over all three adapters the claim
fails: see the counterexample on the PDF adapter's overview unit.) -/
theorem c4_snippet_web (configName : String)
    (categories : Option (List (String × List String))) (docsLen : Nat)
    (p : DocScraper.RawPage) (d : DocPage)
    (h : DocScraper.processPage configName categories docsLen p = some d) :
    d.snippet = jsSubstrTo d.content 200 ++ "..." := by
  unfold DocScraper.processPage at h
  split at h
  · exact absurd h (by simp)
  · simp only [Option.some.injEq] at h
    subst h
    rfl

/-- C4 witness: on a concrete accepted page the produced unit's snippet is
its content prefix plus ellipsis; the page is indeed accepted. -/
theorem c4_snippet_web_witness :
    ((DocScraper.processPage "n" none 0
        ⟨"u", "T", "01234567890123456789012345678901234567890123456789", [], [],
          ⟨none, [], none, none, none⟩⟩).map
      (fun d => d.snippet == jsSubstrTo d.content 200 ++ "...")) = some true := by
  cases h : DocScraper.processPage "n" none 0
      ⟨"u", "T", "01234567890123456789012345678901234567890123456789", [], [],
        ⟨none, [], none, none, none⟩⟩ with
  | none => exact absurd h (by decide)
  | some d =>
    simp [c4_snippet_web "n" none 0 _ d h]

/-- C4 counterexample: the PDF adapter's document-overview unit has snippet
`PDF document with 1 pages`, not `content.substring(0,200) + "..."`, so the
claim is false over all three adapters. -/
theorem c4_snippet_counterexample :
    (PdfScraper.convertPdfToDocPages (fun _ => false)
        { title := "T", content := "", pages := 1, metadata := [], sections := [] }
        "s").map (fun d => d.snippet == jsSubstrTo d.content 200 ++ "...") = [false] ∧
    (PdfScraper.convertPdfToDocPages (fun _ => false)
        { title := "T", content := "", pages := 1, metadata := [], sections := [] }
        "s").map DocPage.snippet = ["PDF document with 1 pages"] := by
  constructor <;> decide

/-! ## C10: the PDF overview unit -/

theorem pdfSectionsGo_head (jsonValid : String → Bool) (skillName : String) :
    ∀ (ss : List PdfSection) (docs : List DocPage), docs ≠ [] →
      (PdfScraper.pdfSectionsGo jsonValid skillName ss docs).head? = docs.head? := by
  intro ss
  induction ss with
  | nil => intro docs h; rfl
  | cons s rest ih =>
    intro docs h
    simp only [PdfScraper.pdfSectionsGo]
    split
    · exact ih docs h
    · rw [ih _ (by simp)]
      cases docs with
      | nil => exact absurd rfl h
      | cons d ds => simp

theorem pdfSectionsGo_length (jsonValid : String → Bool) (skillName : String) :
    ∀ (ss : List PdfSection) (docs : List DocPage),
      docs.length ≤ (PdfScraper.pdfSectionsGo jsonValid skillName ss docs).length := by
  intro ss
  induction ss with
  | nil => intro docs; exact le_refl _
  | cons s rest ih =>
    intro docs
    simp only [PdfScraper.pdfSectionsGo]
    split
    · exact ih docs
    · calc docs.length ≤ (docs ++ [_]).length := by simp
        _ ≤ _ := ih _

/-- C10: for every parsed PDF the extractor returns a non-empty unit list
whose first unit is the document overview — id `docs-1`, type guide,
category `overview`, empty url — even when no section reaches 50 characters
of content, and the job's `pagesScraped` equals the unit count, hence is at
least 1. -/
theorem c10_pdf_overview_unit (jsonValid : String → Bool) (pd : PdfData)
    (skillName : String) :
    1 ≤ (PdfScraper.convertPdfToDocPages jsonValid pd skillName).length ∧
    (PdfScraper.convertPdfToDocPages jsonValid pd skillName).head?
      = some (PdfScraper.overviewDoc pd skillName) ∧
    (PdfScraper.overviewDoc pd skillName).id = "docs-1" ∧
    (PdfScraper.overviewDoc pd skillName).type = PageType.guide ∧
    (PdfScraper.overviewDoc pd skillName).category = some "overview" ∧
    (PdfScraper.overviewDoc pd skillName).url = "" ∧
    PdfScraper.pdfPagesScraped jsonValid pd skillName
      = (PdfScraper.convertPdfToDocPages jsonValid pd skillName).length := by
  refine ⟨?_, ?_, rfl, rfl, rfl, rfl, rfl⟩
  · have h := pdfSectionsGo_length jsonValid skillName pd.sections
      [PdfScraper.overviewDoc pd skillName]
    simpa [PdfScraper.convertPdfToDocPages] using h
  · have h := pdfSectionsGo_head jsonValid skillName pd.sections
      [PdfScraper.overviewDoc pd skillName] (by simp)
    simpa [PdfScraper.convertPdfToDocPages] using h

/-! ## C8: PDF section segmentation without headings -/

theorem trim_data_empty {l : String} (h : (jsTrim l).data.isEmpty = true) : jsTrim l = "" := by
  apply strEq_of_data
  simpa [List.isEmpty_iff] using h

theorem trim_empty_not_codeStart {l : String} (h : jsTrim l = "") :
    PdfScraper.isCodeBlockStart l = false := by
  simp only [PdfScraper.isCodeBlockStart, h]
  decide

theorem trim_empty_not_heading {l : String} (h : jsTrim l = "") :
    PdfScraper.isSectionHeading l = false := by
  simp only [PdfScraper.isSectionHeading, h]
  decide

theorem sectGo_intro (lpp : Nat) :
    ∀ (lines : List String) (i : Nat) (curContent : List String) (t : String) (pn : Nat),
      (∀ l ∈ lines,
        PdfScraper.isCodeBlockStart l = false ∧ PdfScraper.isSectionHeading l = false) →
      PdfScraper.sectGo lpp lines i (some (t, pn)) curContent [] false [] []
        = [PdfScraper.finishSection t pn (curContent ++ lines) []] := by
  intro lines
  induction lines with
  | nil =>
    intro i cc t pn h
    simp [PdfScraper.sectGo]
  | cons line rest ih =>
    intro i cc t pn h
    have hl := h line (by simp)
    simp only [PdfScraper.sectGo, hl.1, hl.2, Bool.false_eq_true, if_false]
    rw [ih (i + 1) (cc ++ [line]) t pn (fun l hl2 => h l (by simp [hl2]))]
    simp

theorem sectGo_none (lpp : Nat) :
    ∀ (lines : List String) (i : Nat),
      (∀ l ∈ lines,
        PdfScraper.isCodeBlockStart l = false ∧ PdfScraper.isSectionHeading l = false) →
      PdfScraper.sectGo lpp lines i none [] [] false [] []
        = (if lines.all (fun l => (jsTrim l).data.isEmpty) then []
           else [PdfScraper.finishSection "Introduction" 1
                  (lines.dropWhile (fun l => (jsTrim l).data.isEmpty)) []]) := by
  intro lines
  induction lines with
  | nil =>
    intro i h
    simp [PdfScraper.sectGo]
  | cons line rest ih =>
    intro i h
    have hl := h line (by simp)
    by_cases hb : (jsTrim line).data.isEmpty
    · simp only [PdfScraper.sectGo, hl.1, hl.2, Bool.false_eq_true, if_false, hb, if_true]
      rw [ih (i + 1) (fun l hl2 => h l (by simp [hl2]))]
      simp [hb]
    · simp only [PdfScraper.sectGo, hl.1, hl.2, Bool.false_eq_true, if_false, hb]
      rw [sectGo_intro lpp rest (i + 1) [line] "Introduction" 1
        (fun l hl2 => h l (by simp [hl2]))]
      simp [hb]

/-- C8 (amended): when no line of the PDF text is detected as a section
heading and no line opens a code fence, the segmenter returns the single
section `Document Content` holding the entire text exactly when every line
is blank; otherwise the text from the first non-blank line on becomes one
implicit `Introduction` section (the claim's unconditional `Document
Content` result is refuted by the counterexample). -/
theorem c8_extractSections_spec (content : String) (totalPages : Nat)
    (hh : ∀ l ∈ jsSplitNl content, PdfScraper.isSectionHeading l = false)
    (hc : ∀ l ∈ jsSplitNl content, PdfScraper.isCodeBlockStart l = false) :
    PdfScraper.extractSections content totalPages =
      (if (jsSplitNl content).all (fun l => (jsTrim l).data.isEmpty) then
        [{ title := "Document Content", content := content,
           pageNumber := 1, codeBlocks := none }]
      else
        [{ title := "Introduction",
           content := jsTrim (joinNl
             ((jsSplitNl content).dropWhile (fun l => (jsTrim l).data.isEmpty))),
           pageNumber := 1, codeBlocks := none }]) := by
  unfold PdfScraper.extractSections
  dsimp only
  rw [sectGo_none _ _ _ (fun l hl => ⟨hc l hl, hh l hl⟩)]
  by_cases hall : (jsSplitNl content).all (fun l => (jsTrim l).data.isEmpty)
  · simp [hall]
  · simp [hall, PdfScraper.finishSection]

/-- C8 witness: a heading-free one-line text produces the single
`Introduction` section carrying that text. -/
theorem c8_extractSections_witness :
    PdfScraper.extractSections "alpha beta." 1
      = [{ title := "Introduction", content := "alpha beta.",
           pageNumber := 1, codeBlocks := none }] := by
  rw [c8_extractSections_spec "alpha beta." 1 (by decide) (by decide)]
  decide

/-- C8 counterexample: `hello world.` contains no detected heading, yet the
segmenter returns an `Introduction` section, not `Document Content`. -/
theorem c8_extractSections_counterexample :
    (∀ l ∈ jsSplitNl "hello world.", PdfScraper.isSectionHeading l = false) ∧
    (PdfScraper.extractSections "hello world." 1).map PdfSection.title
      = ["Introduction"] := by
  constructor <;> decide

/-! ## C3: presence of the examples document -/

theorem strAppend_ne_append_of_head {s t : String} (hne : s.data.head? ≠ t.data.head?)
    (hs : s.data ≠ []) (ht : t.data ≠ []) : ∀ n m : String, s ++ n ≠ t ++ m := by
  intro n m h
  have hd := strData_inj h
  rw [strData_append, strData_append] at hd
  apply hne
  cases hcs : s.data with
  | nil => exact absurd hcs hs
  | cons c cs =>
    cases hct : t.data with
    | nil => exact absurd hct ht
    | cons c' cs' =>
      rw [hcs, hct] at hd
      simp only [List.cons_append, List.cons.injEq] at hd
      simp [hd.1]

theorem strAppend_ne_of_head {s t : String} (hne : s.data.head? ≠ t.data.head?)
    (hs : s.data ≠ []) (ht : t.data ≠ []) : ∀ n : String, s ++ n ≠ t := by
  intro n h
  exact strAppend_ne_append_of_head hne hs ht n "" (h.trans (strAppend_empty t).symm)

theorem scriptsGo_path_shape :
    ∀ (ss : List CodeBlock) (i : Nat) (used : List String) (f : SkillFile),
      f ∈ SkillBuilder.scriptsGo ss i used → ∃ n, f.path = "scripts/" ++ n := by
  intro ss
  induction ss with
  | nil => intro i used f hf; simp [SkillBuilder.scriptsGo] at hf
  | cons s rest ih =>
    intro i used f hf
    simp only [SkillBuilder.scriptsGo, List.mem_cons] at hf
    rcases hf with hf | hf
    · exact ⟨_, by rw [hf]⟩
    · exact ih _ _ f hf

theorem templatesGo_path_shape :
    ∀ (ss : List CodeBlock) (i : Nat) (used : List String) (f : SkillFile),
      f ∈ SkillBuilder.templatesGo ss i used → ∃ n, f.path = "templates/" ++ n := by
  intro ss
  induction ss with
  | nil => intro i used f hf; simp [SkillBuilder.templatesGo] at hf
  | cons s rest ih =>
    intro i used f hf
    simp only [SkillBuilder.templatesGo, List.mem_cons] at hf
    rcases hf with hf | hf
    · exact ⟨_, by rw [hf]⟩
    · exact ih _ _ f hf

theorem examples_not_mem_scripts (codeBlocks : List CodeBlock) :
    ("examples.md" : String) ∉
      (SkillBuilder.generateScriptsDirectory codeBlocks).map SkillFile.path := by
  intro hmem
  rcases List.mem_map.mp hmem with ⟨f, hf, hpath⟩
  rcases scriptsGo_path_shape _ 0 [] f hf with ⟨n, hn⟩
  exact strAppend_ne_of_head (s := "scripts/") (t := "examples.md")
    (by decide) (by decide) (by decide) n (hn ▸ hpath)

theorem examples_not_mem_templates (codeBlocks : List CodeBlock) :
    ("examples.md" : String) ∉
      (SkillBuilder.generateTemplatesDirectory codeBlocks).map SkillFile.path := by
  intro hmem
  rcases List.mem_map.mp hmem with ⟨f, hf, hpath⟩
  rcases templatesGo_path_shape _ 0 [] f hf with ⟨n, hn⟩
  exact strAppend_ne_of_head (s := "templates/") (t := "examples.md")
    (by decide) (by decide) (by decide) n (hn ▸ hpath)

/-- C3 (amended): `examples.md` is present in the generated file set exactly
when some unit has type `example` or at least one code example.  (The claim's
version — presence iff some unit has a non-empty `codeExamples` — is refuted
by the counterexample below: a unit typed `example` with no code examples
also produces the file.) -/
theorem c3_examples_presence (name description : String) (docs : List DocPage)
    (sourceType : JobType) (sourceUrl : Option String) :
    ("examples.md" ∈
      (SkillBuilder.buildSkillFiles name description docs sourceType sourceUrl).map
        SkillFile.path)
      ↔ ∃ d ∈ docs, d.type = PageType.examplePage ∨ d.codeExamples ≠ [] := by
  have hfilter :
      (docs.filter (fun d => d.type == PageType.examplePage || !d.codeExamples.isEmpty) ≠ [])
        ↔ ∃ d ∈ docs, d.type = PageType.examplePage ∨ d.codeExamples ≠ [] := by
    rw [Ne, List.filter_eq_nil_iff]
    push_neg
    constructor
    · rintro ⟨d, hd, hp⟩
      refine ⟨d, hd, ?_⟩
      simpa using hp
    · rintro ⟨d, hd, hp⟩
      refine ⟨d, hd, ?_⟩
      simpa using hp
  rw [← hfilter]
  unfold SkillBuilder.buildSkillFiles
  dsimp only
  by_cases hex :
      docs.filter (fun d => d.type == PageType.examplePage || !d.codeExamples.isEmpty) = []
  · simp only [hex, List.isEmpty_nil, if_true, List.append_nil]
    constructor
    · intro hmem
      exfalso
      simp only [List.map_append, List.mem_append] at hmem
      rcases hmem with ((hmem | hmem) | hmem) | hmem
      · simp at hmem
      · rcases href : SkillBuilder.generateReferenceFile (SkillBuilder.groupByCategory docs)
            (docs.filter (fun d => d.type == PageType.api)) with _ | rc <;>
          rw [href] at hmem <;> simp at hmem
      · exact examples_not_mem_scripts _ hmem
      · exact examples_not_mem_templates _ hmem
    · intro h
      exact absurd rfl h
  · have hne : (docs.filter
        (fun d => d.type == PageType.examplePage || !d.codeExamples.isEmpty)).isEmpty = false := by
      simpa [List.isEmpty_iff] using hex
    constructor
    · intro _; exact hex
    · intro _
      simp only [hne, Bool.false_eq_true, if_false, List.map_append, List.mem_append]
      left; left; right
      simp

/-- C3 counterexample: a single unit typed `example` with an empty
`codeExamples` list still yields `examples.md`, refuting presence iff some
unit has a non-empty `codeExamples`. -/
theorem c3_examples_counterexample :
    ("examples.md" ∈
      (SkillBuilder.buildSkillFiles "N" "D"
        [{ id := "docs-1", source := "s", title := "T", content := "C", snippet := "sn",
           type := PageType.examplePage, url := "", searchableText := "t",
           category := none, apiReference := none, codeExamples := [], codeBlocks := [] }]
        JobType.scrapeDocs none).map SkillFile.path) ∧
    (∀ d ∈ [({ id := "docs-1", source := "s", title := "T", content := "C", snippet := "sn",
                type := PageType.examplePage, url := "", searchableText := "t",
                category := none, apiReference := none, codeExamples := [], codeBlocks := [] } :
              DocPage)], d.codeExamples = []) := by
  constructor <;> decide

/-- C3 witness: with no example-typed unit and no code examples anywhere,
`examples.md` is absent. -/
theorem c3_examples_witness :
    ("examples.md" ∉
      (SkillBuilder.buildSkillFiles "N" "D"
        [{ id := "docs-1", source := "s", title := "T", content := "C", snippet := "sn",
           type := PageType.guide, url := "", searchableText := "t",
           category := none, apiReference := none, codeExamples := [], codeBlocks := [] }]
        JobType.scrapeDocs none).map SkillFile.path) := by
  rw [c3_examples_presence]
  rintro ⟨d, hd, hp⟩
  simp only [List.mem_singleton] at hd
  subst hd
  rcases hp with hp | hp <;> simp at hp

/-! ## C5: distinctness of the emitted script/template paths -/

theorem cand_ne_cand {base ext : String} {j k : Nat} (h : j ≠ k) :
    base ++ "_" ++ natDec j ++ ext ≠ base ++ "_" ++ natDec k ++ ext := by
  intro he
  apply h
  apply natDec_inj
  have hd := strData_inj he
  simp only [strData_append] at hd
  exact strEq_of_data (List.append_cancel_left (List.append_cancel_right hd))

theorem fn0_ne_cand {base ext : String} (k : Nat) :
    base ++ ext ≠ base ++ "_" ++ natDec k ++ ext := by
  intro he
  have hd := strData_inj he
  simp only [strData_append] at hd
  have hlen := congrArg List.length hd
  simp only [List.length_append] at hlen
  have hk : 0 < (natDec k).data.length :=
    List.length_pos.mpr (decDigits_ne_nil k)
  have hu : (("_" : String)).data.length = 1 := rfl
  omega

theorem resolveCollision_shape :
    ∀ (used : List String) (base ext fn : String) (c : Nat),
      SkillBuilder.resolveCollision used base ext fn c = fn ∨
      ∃ k, c ≤ k ∧
        SkillBuilder.resolveCollision used base ext fn c
          = base ++ "_" ++ natDec k ++ ext := by
  suffices H : ∀ (N : Nat) (used : List String) (base ext fn : String) (c : Nat),
      used.length = N →
      SkillBuilder.resolveCollision used base ext fn c = fn ∨
      ∃ k, c ≤ k ∧ SkillBuilder.resolveCollision used base ext fn c
        = base ++ "_" ++ natDec k ++ ext from
    fun used base ext fn c => H used.length used base ext fn c rfl
  intro N
  induction N using Nat.strong_induction_on with
  | _ N ih =>
    intro used base ext fn c hN
    rw [SkillBuilder.resolveCollision]
    split
    case isTrue h =>
      have hlt : (used.erase fn).length < N := by
        have h1 := List.length_erase_of_mem h
        have h2 : 0 < used.length := List.length_pos.mpr (List.ne_nil_of_mem h)
        omega
      rcases ih _ hlt (used.erase fn) base ext
          (base ++ "_" ++ natDec c ++ ext) (c + 1) rfl with h1 | ⟨k, hk, h2⟩
      · exact Or.inr ⟨c, le_refl c, h1⟩
      · exact Or.inr ⟨k, by omega, h2⟩
    case isFalse h => exact Or.inl rfl

theorem resolveCollision_not_mem :
    ∀ (used : List String) (base ext fn : String) (c : Nat),
      (∀ k, c ≤ k → fn ≠ base ++ "_" ++ natDec k ++ ext) →
      SkillBuilder.resolveCollision used base ext fn c ∉ used := by
  suffices H : ∀ (N : Nat) (used : List String) (base ext fn : String) (c : Nat),
      used.length = N →
      (∀ k, c ≤ k → fn ≠ base ++ "_" ++ natDec k ++ ext) →
      SkillBuilder.resolveCollision used base ext fn c ∉ used from
    fun used base ext fn c => H used.length used base ext fn c rfl
  intro N
  induction N using Nat.strong_induction_on with
  | _ N ih =>
    intro used base ext fn c hN hfn
    rw [SkillBuilder.resolveCollision]
    split
    case isTrue h =>
      have hlt : (used.erase fn).length < N := by
        have h1 := List.length_erase_of_mem h
        have h2 : 0 < used.length := List.length_pos.mpr (List.ne_nil_of_mem h)
        omega
      have hfn2 : ∀ k, c + 1 ≤ k →
          base ++ "_" ++ natDec c ++ ext ≠ base ++ "_" ++ natDec k ++ ext :=
        fun k hk => cand_ne_cand (by omega)
      have hrec := ih _ hlt (used.erase fn) base ext
        (base ++ "_" ++ natDec c ++ ext) (c + 1) rfl hfn2
      have hne : SkillBuilder.resolveCollision (used.erase fn) base ext
          (base ++ "_" ++ natDec c ++ ext) (c + 1) ≠ fn := by
        rcases resolveCollision_shape (used.erase fn) base ext
            (base ++ "_" ++ natDec c ++ ext) (c + 1) with h1 | ⟨k, hk, h2⟩
        · rw [h1]; exact fun he => hfn c (le_refl c) he.symm
        · rw [h2]; exact fun he => hfn k (by omega) he.symm
      intro hmem
      exact hrec ((List.mem_erase_of_ne hne).mpr hmem)
    case isFalse h => exact h

theorem decDigits_no_dot {n : Nat} : ('.' : Char) ∉ decDigits n := by
  intro h
  have hm := decDigits_digits h
  simp at hm

theorem slugGo_chars :
    ∀ (b : Bool) (cs : List Char) (c : Char),
      c ∈ SkillBuilder.slugGo b cs → SkillBuilder.isLowerDigit c = true ∨ c = '_' := by
  intro b cs
  induction cs generalizing b with
  | nil => intro c h; simp [SkillBuilder.slugGo] at h
  | cons x xs ih =>
    intro c h
    unfold SkillBuilder.slugGo at h
    split at h
    case isTrue hx =>
      rcases List.mem_cons.mp h with h | h
      · subst h; exact Or.inl hx
      · exact ih _ c h
    case isFalse hx =>
      split at h
      · exact ih _ c h
      · rcases List.mem_cons.mp h with h | h
        · exact Or.inr h
        · exact ih _ c h

theorem posBase_no_dot {stem : String} (hstem : ('.' : Char) ∉ stem.data) (i : Nat) :
    ('.' : Char) ∉ (SkillBuilder.positionalBase stem i).data := by
  unfold SkillBuilder.positionalBase
  rw [strData_append]
  intro h
  rcases List.mem_append.mp h with h | h
  · exact hstem h
  · by_cases hi : 0 < i
    · simp only [hi, if_true, strData_append] at h
      rcases List.mem_append.mp h with h | h
      · simp at h
      · exact decDigits_no_dot h
    · simp [hi] at h

theorem slugBase_no_dot (t : String) :
    ('.' : Char) ∉ (jsSubstrTo (SkillBuilder.slugify t) 20).data := by
  intro h
  have h2 : ('.' : Char) ∈ (SkillBuilder.slugify t).data := List.mem_of_mem_take h
  rcases slugGo_chars false _ _ h2 with h3 | h3 <;> simp [SkillBuilder.isLowerDigit] at h3

theorem scriptExt_mem (language : Option String) :
    SkillBuilder.scriptExt language ∈
      ([".py", ".js", ".ts", ".sh", ".rb", ".go", ".rs", ".java"] : List String) := by
  cases language with
  | none => simp [SkillBuilder.scriptExt]
  | some l =>
    unfold SkillBuilder.scriptExt SkillBuilder.scriptExtOf
    dsimp only
    split_ifs <;> simp

theorem scriptExt_shape (language : Option String) :
    ∃ w : List Char, (SkillBuilder.scriptExt language).data = '.' :: w ∧ w ≠ [] ∧
      ('.' : Char) ∉ w := by
  have hm := scriptExt_mem language
  simp only [List.mem_cons, List.not_mem_nil, or_false] at hm
  rcases hm with h | h | h | h | h | h | h | h <;> rw [h] <;>
    exact ⟨_, rfl, by decide, by decide⟩

theorem generateScriptFilename_shape (script : CodeBlock) (i : Nat) :
    ∃ B E : String, SkillBuilder.generateScriptFilename script i = B ++ E ∧
      (('.' : Char) ∉ B.data) ∧ ∃ w, E.data = '.' :: w ∧ w ≠ [] ∧ ('.' : Char) ∉ w := by
  obtain ⟨w, hw1, hw2, hw3⟩ := scriptExt_shape script.language
  cases htitle : script.title with
  | none =>
    refine ⟨SkillBuilder.positionalBase ("helper") i, SkillBuilder.scriptExt script.language,
      ?_, posBase_no_dot (by decide) i, w, hw1, hw2, hw3⟩
    unfold SkillBuilder.generateScriptFilename
    rw [htitle]
  | some t =>
    by_cases hemp : t.data.isEmpty
    · refine ⟨SkillBuilder.positionalBase ("helper") i, SkillBuilder.scriptExt script.language,
        ?_, posBase_no_dot (by decide) i, w, hw1, hw2, hw3⟩
      unfold SkillBuilder.generateScriptFilename
      rw [htitle]
      simp [hemp]
    · refine ⟨jsSubstrTo (SkillBuilder.slugify t) 20, SkillBuilder.scriptExt script.language,
        ?_, slugBase_no_dot t, w, hw1, hw2, hw3⟩
      unfold SkillBuilder.generateScriptFilename
      rw [htitle]
      simp [hemp]

theorem takeWhile_append_of_all {p : Char → Bool} :
    ∀ (xs : List Char) (y : Char) (ys : List Char),
      (∀ x ∈ xs, p x = true) → p y = false →
      (xs ++ y :: ys).takeWhile p = xs ∧ (xs ++ y :: ys).dropWhile p = y :: ys := by
  intro xs
  induction xs with
  | nil =>
    intro y ys hall hy
    simp [List.takeWhile, List.dropWhile, hy]
  | cons x xs ih =>
    intro y ys hall hy
    have hx := hall x (by simp)
    have hrest := ih y ys (fun a ha => hall a (by simp [ha])) hy
    simp [List.takeWhile_cons, List.dropWhile_cons, hx, hrest.1, hrest.2]

theorem strip_ext_shape {B E : String} (hB : ('.' : Char) ∉ B.data)
    {w : List Char} (hE : E.data = '.' :: w) (hwne : w ≠ []) (hw : ('.' : Char) ∉ w) :
    SkillBuilder.stripLastExt (B ++ E) = B ∧
    SkillBuilder.extFromLastDot (B ++ E) = E := by
  have hdata : (B ++ E).data.reverse = w.reverse ++ '.' :: B.data.reverse := by
    rw [strData_append, hE]
    simp
  have hall : ∀ x ∈ w.reverse, (fun c => decide (c ≠ '.')) x = true := by
    intro x hx
    simp only [decide_eq_true_eq]
    intro hxx
    subst hxx
    exact hw (List.mem_reverse.mp hx)
  have hstop : (fun c => decide (c ≠ '.')) '.' = false := by simp
  have htd := takeWhile_append_of_all w.reverse '.' B.data.reverse hall hstop
  constructor
  · unfold SkillBuilder.stripLastExt
    dsimp only
    rw [hdata, htd.1, htd.2]
    have hwr : w.reverse.isEmpty = false := by
      simpa [List.isEmpty_iff] using hwne
    simp [hwr, strMk_data]
  · unfold SkillBuilder.extFromLastDot
    dsimp only
    rw [hdata, htd.1, htd.2]
    simp only [List.isEmpty_cons, Bool.false_eq_true, if_false, List.reverse_reverse]
    exact strEq_of_data (by rw [hE])

theorem jsIncludes_dot {B E : String} {w : List Char} (hE : E.data = '.' :: w) :
    jsIncludes (B ++ E) (".") = true := by
  have hmem : ('.' : Char) ∈ (B ++ E).data := by
    rw [strData_append, hE]
    simp
  have h : ((".") : String).data = ['.'] := rfl
  simpa [jsIncludes, h] using (infixOfData_singleton '.' (B ++ E).data).mpr hmem

theorem scriptsGo_spec :
    ∀ (ss : List CodeBlock) (i : Nat) (used : List String),
      (∀ f ∈ SkillBuilder.scriptsGo ss i used, ∃ n, f.path = "scripts/" ++ n ∧ n ∉ used) ∧
      ((SkillBuilder.scriptsGo ss i used).map SkillFile.path).Nodup := by
  intro ss
  induction ss with
  | nil =>
    intro i used
    exact ⟨fun f hf => by simp [SkillBuilder.scriptsGo] at hf,
      by simp [SkillBuilder.scriptsGo]⟩
  | cons script rest ih =>
    intro i used
    obtain ⟨B, E, hBE, hB, w, hEw, hwne, hw⟩ := generateScriptFilename_shape script i
    obtain ⟨hstrip, hext⟩ := strip_ext_shape hB hEw hwne hw
    have hinc := jsIncludes_dot (B := B) hEw
    have hgo : SkillBuilder.scriptsGo (script :: rest) i used
        = { path := "scripts/" ++ SkillBuilder.resolveCollision used B E (B ++ E) 1,
            content := script.code, size := jsLen script.code } ::
          SkillBuilder.scriptsGo rest (i + 1)
            (SkillBuilder.resolveCollision used B E (B ++ E) 1 :: used) := by
      simp only [SkillBuilder.scriptsGo]
      rw [hBE]
      simp only [hinc, if_true]
      rw [hstrip, hext]
    rw [hgo]
    have hfresh : SkillBuilder.resolveCollision used B E (B ++ E) 1 ∉ used :=
      resolveCollision_not_mem used B E (B ++ E) 1 (fun k hk => fn0_ne_cand k)
    obtain ⟨ihmem, ihnodup⟩ := ih (i + 1) (SkillBuilder.resolveCollision used B E (B ++ E) 1 :: used)
    constructor
    · intro f hf
      rcases List.mem_cons.mp hf with hf | hf
      · exact ⟨SkillBuilder.resolveCollision used B E (B ++ E) 1, by rw [hf], hfresh⟩
      · obtain ⟨n, hn, hnmem⟩ := ihmem f hf
        exact ⟨n, hn, fun hc => hnmem (by simp [hc])⟩
    · rw [List.map_cons, List.nodup_cons]
      refine ⟨?_, ihnodup⟩
      intro hmem
      obtain ⟨f, hf, hfp⟩ := List.mem_map.mp hmem
      obtain ⟨n, hn, hnmem⟩ := ihmem f hf
      have hn2 : n = SkillBuilder.resolveCollision used B E (B ++ E) 1 :=
        strAppend_left_cancel (by rw [← hn]; exact hfp)
      exact hnmem (by simp [hn2])

theorem generateTemplateFilename_shape (template : CodeBlock) (i : Nat) :
    ∃ B : String, SkillBuilder.generateTemplateFilename template i = B ++ ".txt" :=
  ⟨_, rfl⟩

theorem stripTxtExt_append (B : String) : SkillBuilder.stripTxtExt (B ++ ".txt") = B := by
  unfold SkillBuilder.stripTxtExt
  have htxt : ((".txt" : String)).data = ['.', 't', 'x', 't'] := rfl
  have hsuf : (['.', 't', 'x', 't'].isSuffixOf (B ++ ".txt").data) = true := by
    rw [strData_append, htxt]
    simp [List.isSuffixOf_iff_suffix]
  simp only [hsuf, if_true]
  rw [strData_append, htxt]
  have hlen : (B.data ++ ['.', 't', 'x', 't']).length - 4 = B.data.length := by
    simp
  rw [hlen, List.take_left, strMk_data]

theorem templatesGo_spec :
    ∀ (ss : List CodeBlock) (i : Nat) (used : List String),
      (∀ f ∈ SkillBuilder.templatesGo ss i used, ∃ n, f.path = "templates/" ++ n ∧ n ∉ used) ∧
      ((SkillBuilder.templatesGo ss i used).map SkillFile.path).Nodup := by
  intro ss
  induction ss with
  | nil =>
    intro i used
    exact ⟨fun f hf => by simp [SkillBuilder.templatesGo] at hf,
      by simp [SkillBuilder.templatesGo]⟩
  | cons template rest ih =>
    intro i used
    obtain ⟨B, hBE⟩ := generateTemplateFilename_shape template i
    have hgo : SkillBuilder.templatesGo (template :: rest) i used
        = { path := "templates/" ++ SkillBuilder.resolveCollision used B ".txt" (B ++ ".txt") 1,
            content := template.code, size := jsLen template.code } ::
          SkillBuilder.templatesGo rest (i + 1)
            (SkillBuilder.resolveCollision used B ".txt" (B ++ ".txt") 1 :: used) := by
      simp only [SkillBuilder.templatesGo]
      rw [hBE, stripTxtExt_append]
    rw [hgo]
    have hfresh : SkillBuilder.resolveCollision used B ".txt" (B ++ ".txt") 1 ∉ used :=
      resolveCollision_not_mem used B ".txt" (B ++ ".txt") 1 (fun k hk => fn0_ne_cand k)
    obtain ⟨ihmem, ihnodup⟩ :=
      ih (i + 1) (SkillBuilder.resolveCollision used B ".txt" (B ++ ".txt") 1 :: used)
    constructor
    · intro f hf
      rcases List.mem_cons.mp hf with hf | hf
      · exact ⟨SkillBuilder.resolveCollision used B ".txt" (B ++ ".txt") 1, by rw [hf], hfresh⟩
      · obtain ⟨n, hn, hnmem⟩ := ihmem f hf
        exact ⟨n, hn, fun hc => hnmem (by simp [hc])⟩
    · rw [List.map_cons, List.nodup_cons]
      refine ⟨?_, ihnodup⟩
      intro hmem
      obtain ⟨f, hf, hfp⟩ := List.mem_map.mp hmem
      obtain ⟨n, hn, hnmem⟩ := ihmem f hf
      have hn2 : n = SkillBuilder.resolveCollision used B ".txt" (B ++ ".txt") 1 :=
        strAppend_left_cancel (by rw [← hn]; exact hfp)
      exact hnmem (by simp [hn2])

/-- C5: the script and template file paths emitted by the package builder
are pairwise distinct.  The filenames derive from the slugified 20-character
title or the positional `helper`/`template` defaults (this derivation is the
definition of `generateScriptFilename`/`generateTemplateFilename`), and each
collision with an already-used filename is resolved by suffixing `_1`, `_2`,
… before the extension until the name is fresh, which is what makes the full
path list duplicate-free. -/
theorem c5_paths_distinct (codeBlocks : List CodeBlock) :
    (((SkillBuilder.generateScriptsDirectory codeBlocks).map SkillFile.path) ++
     ((SkillBuilder.generateTemplatesDirectory codeBlocks).map SkillFile.path)).Nodup := by
  rw [List.nodup_append]
  refine ⟨(scriptsGo_spec _ 0 []).2, (templatesGo_spec _ 0 []).2, ?_⟩
  intro p hp hq
  obtain ⟨f, hf, hfp⟩ := List.mem_map.mp hp
  obtain ⟨g, hg, hgp⟩ := List.mem_map.mp hq
  obtain ⟨n, hn⟩ := scriptsGo_path_shape _ 0 [] f hf
  obtain ⟨m, hm⟩ := templatesGo_path_shape _ 0 [] g hg
  exact strAppend_ne_append_of_head (s := "scripts/") (t := "templates/")
    (by decide) (by decide) (by decide) n m (by rw [← hn, ← hm, hfp, hgp])

end SkillSeekers
